import Mathlib

/-!
# rwr: blueprint resolution and package orchestration

A shallow embedding of `internal/processors/package.go` and
`internal/processors/blueprints.go`, with the record types they read.

Conventions of the embedding.

* A Go `error` result is an `Option`: `none` is `nil`.
* External collaborators (`helpers.RunCommand`, `helpers.UnmarshalBlueprint`,
  `helpers.SetPaths`, `os.ReadFile`) are parameters, gathered in `Collaborators`.
* `helpers.RunCommand` is a function of the list of commands it has already been
  handed and of the command at hand, so its answer may depend on everything that
  happened before.  The list of commands handed to it is threaded through the
  functions as explicit state.
* Only `log.Warn`/`log.Warnf` output is kept (the failure summary); debug, info and
  error log lines are not part of the model, except that the init file named by the last
  info line of `GetBlueprintsLocation` is kept as `initFilePath`.
* A `nil` slice and an empty slice are both the empty list, except for
  `Blueprint.Order`, whose `nil` test the code performs and which is an `Option`.
-/

namespace Rwr

/-! ## Record types -/

/-- Modelled from the spec: the `Command` record (`types.Command`, whose declaration is not among
the sources), with the three fields `HandlePackage` sets. -/
structure Command where
  Exec : String
  Args : List String
  Elevated : Bool
deriving DecidableEq, Repr

/-- Modelled from the spec: the `PackageManagerInfo` record (its declaration is not among the
sources): install template, remove template and elevation flag, and the `Name` the code logs. -/
structure PackageManagerInfo where
  Name : String
  Install : String
  Remove : String
  Elevated : Bool
deriving DecidableEq, Repr

/-- Modelled from the spec: the package-manager table `types.PackageManager` (its declaration is
not among the sources): the default entry and one entry per manager `HandlePackage` reads. -/
structure PackageManager where
  Default : PackageManagerInfo
  Brew : PackageManagerInfo
  Apt : PackageManagerInfo
  Dnf : PackageManagerInfo
  Eopkg : PackageManagerInfo
  Pacman : PackageManagerInfo
  Zypper : PackageManagerInfo
  Emerge : PackageManagerInfo
  Nix : PackageManagerInfo
  Cargo : PackageManagerInfo
deriving DecidableEq, Repr

/-- OS information (`types.OSInfo`, initialize.go); `Tools` is not read by the modelled code. -/
structure OSInfo where
  OS : String
  PackageManager : PackageManager
deriving DecidableEq, Repr

/-- Modelled from the spec: the `PackageEntry` record (`types.Package`, whose declaration is not
among the sources), with the five fields the processors read. -/
structure Package where
  Name : String
  Names : List String
  Elevated : Bool
  Action : String
  PackageManager : String
deriving DecidableEq, Repr

/-- Modelled from the spec: the decoded package blueprint (`types.PackagesData`, whose declaration
is not among the sources): the list of its entries. -/
structure PackagesData where
  Packages : List Package
deriving DecidableEq, Repr

/-- Flags (`types.Flags`, initialize.go). -/
structure Flags where
  Debug : Bool
  LogLevel : String
  Interactive : Bool
  ForceBootstrap : Bool
  GHAPIToken : String
  SSHKey : String
  SkipVersionCheck : Bool
  InitTemplatesEnabled : Bool
deriving DecidableEq, Repr

/-- Variables (`types.Variables`, initialize.go): the `Flags` part, the only one read here. -/
structure Variables where
  Flags : Flags
deriving DecidableEq, Repr

/-- Modelled from the spec: section `blueprints` of the init configuration (`types.Init`, whose
declaration is not among the sources): the `Format` field read by `ProcessPackagesFromData`. -/
structure Init where
  Format : String
deriving DecidableEq, Repr

/-- Init configuration (`types.InitConfig`, initialize.go): the fields read by package.go. -/
structure InitConfig where
  Init : Init
  Variables : Variables
deriving DecidableEq, Repr

/-! ## Errors of `HandlePackage` -/

/-- The three errors `HandlePackage` can return, one per `fmt.Errorf` call of its body. -/
inductive PkgError where
  | unsupportedManager (packageManager : String)
  | unsupportedAction (action : String)
  | processing (name : String) (err : String)
deriving DecidableEq, Repr

/-- Text of the error, as the three `fmt.Errorf` format strings of `HandlePackage` render it. -/
def PkgError.Error : PkgError → String
  | .unsupportedManager pm => "unsupported package manager: " ++ pm
  | .unsupportedAction a => "unsupported action: " ++ a
  | .processing name err => "error processing package " ++ name ++ ": " ++ err

/-! ## Collaborators -/

/-- Behaviour of `helpers.RunCommand`: given the commands already handed to it, the
command at hand and the debug flag, the error it returns (`none` for `nil`). -/
abbrev Executor := List Command → Command → Bool → Option String

/-- External collaborators of the package processors. -/
structure Collaborators where
  /-- Function `os.ReadFile`: the bytes of the file, or the error text. -/
  ReadFile : String → Except String (List UInt8)
  /-- Function `helpers.UnmarshalBlueprint`: bytes and format to decoded data, or the error text. -/
  UnmarshalBlueprint : List UInt8 → String → Except String PackagesData
  /-- Function `helpers.SetPaths`: the error it returns. -/
  SetPaths : Option String
  /-- Function `helpers.RunCommand`. -/
  RunCommand : Executor

/-! ## `HandlePackage` -/

/-- Values of `install`, `remove`, `elevated` after the manager dispatch of `HandlePackage`
(package.go lines 152-214), or the error of its `default` branch. -/
def resolveManager (packageManager : String) (osInfo : OSInfo) :
    Except PkgError (String × String × Bool) :=
  if packageManager ≠ "" then
    if packageManager = "brew" then
      .ok (osInfo.PackageManager.Brew.Install, osInfo.PackageManager.Brew.Remove,
        osInfo.PackageManager.Brew.Elevated)
    else if packageManager = "apt" then
      .ok (osInfo.PackageManager.Apt.Install, osInfo.PackageManager.Apt.Remove,
        osInfo.PackageManager.Apt.Elevated)
    else if packageManager = "dnf" then
      .ok (osInfo.PackageManager.Dnf.Install, osInfo.PackageManager.Dnf.Remove,
        osInfo.PackageManager.Dnf.Elevated)
    else if packageManager = "eopkg" then
      .ok (osInfo.PackageManager.Eopkg.Install, osInfo.PackageManager.Eopkg.Remove,
        osInfo.PackageManager.Eopkg.Elevated)
    else if packageManager = "yay" ∨ packageManager = "paru" ∨ packageManager = "trizen" ∨
        packageManager = "yaourt" ∨ packageManager = "pamac" ∨ packageManager = "aura" then
      .ok (osInfo.PackageManager.Default.Install, osInfo.PackageManager.Default.Remove,
        osInfo.PackageManager.Default.Elevated)
    else if packageManager = "pacman" then
      .ok (osInfo.PackageManager.Pacman.Install, osInfo.PackageManager.Pacman.Remove,
        osInfo.PackageManager.Pacman.Elevated)
    else if packageManager = "zypper" then
      .ok (osInfo.PackageManager.Zypper.Install, osInfo.PackageManager.Zypper.Remove,
        osInfo.PackageManager.Zypper.Elevated)
    else if packageManager = "emerge" then
      .ok (osInfo.PackageManager.Emerge.Install, osInfo.PackageManager.Emerge.Remove,
        osInfo.PackageManager.Emerge.Elevated)
    else if packageManager = "nix" then
      .ok (osInfo.PackageManager.Nix.Install, osInfo.PackageManager.Nix.Remove,
        osInfo.PackageManager.Nix.Elevated)
    else if packageManager = "cargo" then
      .ok (osInfo.PackageManager.Cargo.Install, osInfo.PackageManager.Cargo.Remove,
        osInfo.PackageManager.Cargo.Elevated)
    else
      .error (.unsupportedManager packageManager)
  else
    .ok (osInfo.PackageManager.Default.Install, osInfo.PackageManager.Default.Remove,
      osInfo.PackageManager.Default.Elevated)

/-- Function `HandlePackage` (package.go lines 146-246).  `calls` is the list of commands
handed to `RunCommand` so far; the result is the returned error and the list afterwards. -/
def HandlePackage (pkg : Package) (osInfo : OSInfo) (initConfig : InitConfig)
    (RunCommand : Executor) (calls : List Command) : Option PkgError × List Command :=
  match resolveManager pkg.PackageManager osInfo with
  | .error e => (some e, calls)
  | .ok (install, remove, elevated) =>
    -- Override the elevated flag if specified in the package configuration
    let elevated := if pkg.Elevated then true else elevated
    let args : List String := [] ++ [pkg.Name]
    let command : Except PkgError String :=
      if pkg.Action = "install" then .ok install
      else if pkg.Action = "remove" then .ok remove
      else .error (.unsupportedAction pkg.Action)
    match command with
    | .error e => (some e, calls)
    | .ok command =>
      let pkgCmd : Command := { Exec := command, Args := args, Elevated := elevated }
      match RunCommand calls pkgCmd initConfig.Variables.Flags.Debug with
      | some err => (some (.processing pkg.Name err), calls ++ [pkgCmd])
      | none => (none, calls ++ [pkgCmd])

/-! ## The two package processors -/

/-- Mutable state of the processing loops: the commands handed to `RunCommand` and the
`failedPackages` slice. -/
structure RunState where
  calls : List Command
  failedPackages : List String
deriving DecidableEq, Repr

/-- Outcome of a processor: the returned error, the commands handed to `RunCommand`, the
final `failedPackages` slice and the warning lines logged. -/
structure ProcessResult where
  err : Option String
  calls : List Command
  failedPackages : List String
  warnings : List String
deriving DecidableEq, Repr

/-- Warning lines logged after the loop (package.go lines 74-79 and 136-141). -/
def warnFailed (failedPackages : List String) : List String :=
  if failedPackages.length > 0 then
    "Failed to install the following packages:" :: failedPackages
  else []

/-- Function `filepath.Ext`: the suffix of the path from the last dot of its last element on,
or the empty string. -/
def Ext (path : String) : String :=
  let last := (path.toList.reverse.takeWhile (· ≠ '/')).reverse
  if last.contains '.' then
    String.mk ('.' :: (last.reverse.takeWhile (· ≠ '.')).reverse)
  else ""

/-- Loop of `ProcessPackagesFromFile` (package.go lines 43-72). -/
def fileLoop (packages : List Package) (osInfo : OSInfo) (initConfig : InitConfig)
    (RunCommand : Executor) (st : RunState) : RunState :=
  packages.foldl (fun st pkg =>
    if pkg.Names.length > 0 then
      pkg.Names.foldl (fun st name =>
        let unit : Package := { Name := name, Names := [], Elevated := pkg.Elevated,
                                Action := pkg.Action, PackageManager := pkg.PackageManager }
        match HandlePackage unit osInfo initConfig RunCommand st.calls with
        | (some err, calls) =>
          { calls := calls,
            failedPackages := st.failedPackages ++ ["Package " ++ name ++ ": " ++ err.Error] }
        | (none, calls) => { calls := calls, failedPackages := st.failedPackages }) st
    else
      match HandlePackage pkg osInfo initConfig RunCommand st.calls with
      | (some err, calls) =>
        { calls := calls,
          failedPackages := st.failedPackages ++ ["Package " ++ pkg.Name ++ ": " ++ err.Error] }
      | (none, calls) => { calls := calls, failedPackages := st.failedPackages }) st

/-- Function `ProcessPackagesFromFile` (package.go lines 13-82). -/
def ProcessPackagesFromFile (env : Collaborators) (blueprintFile : String) (_blueprintDir : String)
    (osInfo : OSInfo) (initConfig : InitConfig) : ProcessResult :=
  match env.ReadFile blueprintFile with
  | .error e =>
    { err := some ("error reading blueprint file: " ++ e), calls := [], failedPackages := [],
      warnings := [] }
  | .ok blueprintData =>
    match env.UnmarshalBlueprint blueprintData (Ext blueprintFile) with
    | .error e =>
      { err := some ("error unmarshaling package blueprint: " ++ e), calls := [],
        failedPackages := [], warnings := [] }
    | .ok packagesData =>
      let packages := packagesData.Packages
      match env.SetPaths with
      | some e =>
        { err := some ("error setting paths: " ++ e), calls := [], failedPackages := [],
          warnings := [] }
      | none =>
        let st := fileLoop packages osInfo initConfig env.RunCommand
          { calls := [], failedPackages := [] }
        { err := none, calls := st.calls, failedPackages := st.failedPackages,
          warnings := warnFailed st.failedPackages }

/-- Loop of `ProcessPackagesFromData` (package.go lines 110-134). -/
def dataLoop (packages : List Package) (osInfo : OSInfo) (initConfig : InitConfig)
    (RunCommand : Executor) (st : RunState) : RunState :=
  packages.foldl (fun st pkg =>
    if pkg.Names.length > 0 then
      pkg.Names.foldl (fun st name =>
        let unit : Package := { Name := name, Names := [], Elevated := pkg.Elevated,
                                Action := pkg.Action, PackageManager := pkg.PackageManager }
        match HandlePackage unit osInfo initConfig RunCommand st.calls with
        | (some err, calls) =>
          { calls := calls,
            failedPackages := st.failedPackages ++ ["Package " ++ name ++ ": " ++ err.Error] }
        | (none, calls) => { calls := calls, failedPackages := st.failedPackages }) st
    else
      match HandlePackage pkg osInfo initConfig RunCommand st.calls with
      | (some err, calls) =>
        { calls := calls,
          failedPackages := st.failedPackages ++ ["Package " ++ pkg.Name ++ ": " ++ err.Error] }
      | (none, calls) => { calls := calls, failedPackages := st.failedPackages }) st

/-- Function `ProcessPackagesFromData` (package.go lines 84-144). -/
def ProcessPackagesFromData (env : Collaborators) (blueprintData : List UInt8)
    (_blueprintDir : String) (osInfo : OSInfo) (initConfig : InitConfig) : ProcessResult :=
  match env.UnmarshalBlueprint blueprintData initConfig.Init.Format with
  | .error e =>
    { err := some ("error unmarshaling package blueprint data: " ++ e), calls := [],
      failedPackages := [], warnings := [] }
  | .ok packagesData =>
    let packages := packagesData.Packages
    match env.SetPaths with
    | some e =>
      { err := some ("error setting paths: " ++ e), calls := [], failedPackages := [],
        warnings := [] }
    | none =>
      let st := dataLoop packages osInfo initConfig env.RunCommand
        { calls := [], failedPackages := [] }
      { err := none, calls := st.calls, failedPackages := st.failedPackages,
        warnings := warnFailed st.failedPackages }

/-! ## Path joining (`path/filepath`, POSIX implementation)

Go strings are byte sequences.  The separator `/` and the dot are ASCII, and no byte of
a multi-byte UTF-8 sequence equals an ASCII byte, so scanning characters gives the same
result as scanning bytes on every valid UTF-8 string. -/

/-- Backtracking of the `..` case of `filepath.Clean`: starting from index `w` (already
decremented once), step back while `w > dotdot` and `buf[w]` is not a separator. -/
def cleanBacktrack (buf : List Char) (dotdot : Nat) : Nat → Nat
  | 0 => 0
  | w + 1 =>
    if w + 1 > dotdot ∧ buf.getD (w + 1) '/' ≠ '/' then cleanBacktrack buf dotdot w
    else w + 1

/-- Main loop of `filepath.Clean`.  The arguments are: whether the path is rooted, whether
the loop is inside the copy loop of a real path element, the unread part of the path
(`path[r:]`), the output buffer (`buf[:w]`) and `dotdot`. -/
def cleanLoop (rooted : Bool) : Bool → List Char → List Char → Nat → List Char
  | _, [], out, _ => out
  | true, c :: rest, out, dotdot =>
    -- copy element: stops at a separator, which the outer loop then skips
    if c = '/' then cleanLoop rooted false rest out dotdot
    else cleanLoop rooted true rest (out ++ [c]) dotdot
  | false, c :: rest, out, dotdot =>
    if c = '/' then
      -- empty path element
      cleanLoop rooted false rest out dotdot
    else if c = '.' ∧ (rest.isEmpty ∨ rest.head? = some '/') then
      -- . element
      cleanLoop rooted false rest out dotdot
    else
      -- real path element: add slash if needed, then copy the element
      let real : List Char :=
        if (rooted ∧ out.length ≠ 1) ∨ (¬ rooted ∧ out.length ≠ 0) then out ++ ['/'] else out
      match rest with
      | [] => cleanLoop rooted true [] (real ++ [c]) dotdot
      | d :: rest2 =>
        if c = '.' ∧ d = '.' ∧ (rest2.isEmpty ∨ rest2.head? = some '/') then
          -- .. element: remove to last separator
          if out.length > dotdot then
            -- can backtrack
            cleanLoop rooted false rest2
              (out.take (cleanBacktrack out dotdot (out.length - 1))) dotdot
          else if ¬ rooted then
            -- cannot backtrack, but not rooted, so append .. element
            let out2 := (if out.length > 0 then out ++ ['/'] else out) ++ ['.', '.']
            cleanLoop rooted false rest2 out2 out2.length
          else
            cleanLoop rooted false rest2 out dotdot
        else
          cleanLoop rooted true (d :: rest2) (real ++ [c]) dotdot

/-- Function `filepath.Clean` (POSIX: no volume name, `FromSlash` is the identity). -/
def Clean (path : String) : String :=
  if path = "" then "."
  else
    let p := path.toList
    let out :=
      if p.head? = some '/' then cleanLoop true false p.tail ['/'] 1
      else cleanLoop false false p [] 0
    -- Turn empty string into "."
    if out.length = 0 then "." else String.mk out

/-- Function `filepath.Join` (POSIX): the elements from the first non-empty one on, joined
with the separator and cleaned; the empty string when every element is empty. -/
def Join : List String → String
  | [] => ""
  | e :: rest => if e ≠ "" then Clean (String.intercalate "/" (e :: rest)) else Join rest

/-! ## blueprints.go: run order and file order -/

/-- A dynamically typed value (Go `interface{}`) as decoded from the init file, up to what
`GetBlueprintFileOrder` can tell apart by its type assertions. -/
inductive Value where
  /-- A Go `string`. -/
  | str (s : String)
  /-- A slice of dynamically typed values. -/
  | slice (items : List Value)
  /-- A map from `string` to dynamically typed values; the list gives the entries in the order the
  `range` loop visits them (unspecified by Go when there is more than one key). -/
  | strMap (entries : List (String × Value))
  /-- Any value of another dynamic type (number, bool, nil, a map with non-string keys, ...),
  with the name of that type. -/
  | other (goType : String)

/-- Function `GetBlueprintFileOrder` (blueprints.go lines 80-98): the returned slice and error. -/
def GetBlueprintFileOrder (_blueprintDir : String) (order : List Value) :
    List String × Option String :=
  let fileOrder : List String :=
    order.foldl (fun fileOrder item =>
      match item with
      | .str str => fileOrder ++ [str]
      | .strMap subOrder =>
        subOrder.foldl (fun fileOrder entry =>
          match entry.2 with
          | .slice filesArr =>
            filesArr.foldl (fun fileOrder file =>
              match file with
              | .str fileStr => fileOrder ++ [Join [entry.1, fileStr]]
              | _ => fileOrder) fileOrder
          | _ => fileOrder) fileOrder
      | _ => fileOrder) []
  (fileOrder, none)

namespace ProcessorsTypes

/-- Modelled from the spec: section `blueprint` of the init descriptor, declared in
`internal/processors/types`, which is not among the sources.  Its `order` is optional; `none`
is the `nil` slice of an init file that declares no order. -/
structure Blueprint where
  Order : Option (List String)
deriving DecidableEq, Repr

/-- Modelled from the spec: the init configuration read by blueprints.go, declared in
`internal/processors/types`, which is not among the sources: the `Blueprint` field. -/
structure InitConfig where
  Blueprint : Blueprint
deriving DecidableEq, Repr

end ProcessorsTypes

/-- Function `GetBlueprintRunOrder` (blueprints.go lines 72-78): the returned slice and error. -/
def GetBlueprintRunOrder (initConfig : ProcessorsTypes.InitConfig) :
    List String × Option String :=
  match initConfig.Blueprint.Order with
  | none => (["repositories", "packages", "files", "services"], none)
  | some order =>
    -- Return the run order specified in the init.yaml/toml/json
    (order, none)

/-! ## Reference definitions, written after the specification -/

/-- The closed set of manager identifiers the specification lists as supported. -/
def supportedManagers : List String :=
  ["brew", "apt", "dnf", "eopkg", "pacman", "zypper", "emerge", "nix", "cargo",
   "yay", "paru", "trizen", "yaourt", "pamac", "aura"]

/-- The AUR-helper names, which the specification makes aliases of the default manager. -/
def aurHelpers : List String := ["yay", "paru", "trizen", "yaourt", "pamac", "aura"]

/-- Reference table of the specification (section 4.4): each known manager identifier with
its own entry of the OS info. -/
def managerTable (pm : PackageManager) : List (String × PackageManagerInfo) :=
  [("brew", pm.Brew), ("apt", pm.Apt), ("dnf", pm.Dnf), ("eopkg", pm.Eopkg),
   ("pacman", pm.Pacman), ("zypper", pm.Zypper), ("emerge", pm.Emerge), ("nix", pm.Nix),
   ("cargo", pm.Cargo)]

/-- Contract `resolveManager` of the specification (section 4.4): the default entry for the
empty identifier, the own entry of a known manager, the default entry for an AUR helper,
nothing for any other identifier. -/
def specResolveManager (identifier : String) (osInfo : OSInfo) : Option PackageManagerInfo :=
  if identifier = "" then some osInfo.PackageManager.Default
  else
    match (managerTable osInfo.PackageManager).lookup identifier with
    | some entry => some entry
    | none => if identifier ∈ aurHelpers then some osInfo.PackageManager.Default else none

/-- Units of work of one entry (specification, section 4.5 step 1): one unit per element of
`names` when it is non-empty, else the single unit `name`; each carries the entry's
`packageManager`, `action` and `elevated`. -/
def entryUnits (entry : Package) : List Package :=
  if entry.Names ≠ [] then
    entry.Names.map fun name =>
      { Name := name, Names := [], Elevated := entry.Elevated, Action := entry.Action,
        PackageManager := entry.PackageManager }
  else
    [{ Name := entry.Name, Names := [], Elevated := entry.Elevated, Action := entry.Action,
       PackageManager := entry.PackageManager }]

/-- Units of work of a blueprint, in declaration order. -/
def specUnits (entries : List Package) : List Package := entries.flatMap entryUnits

/-- Command of a unit (specification, section 4.5 steps 2-4), or nothing when its manager
or its action is unsupported. -/
def specCommand (osInfo : OSInfo) (unit : Package) : Option Command :=
  match specResolveManager unit.PackageManager osInfo with
  | none => none
  | some m =>
    if unit.Action = "install" then
      some { Exec := m.Install, Args := [unit.Name], Elevated := m.Elevated || unit.Elevated }
    else if unit.Action = "remove" then
      some { Exec := m.Remove, Args := [unit.Name], Elevated := m.Elevated || unit.Elevated }
    else none

/-- Body of the processing loops for one unit: handle it, and append a line to
`failedPackages` when handling returned an error. -/
def stepUnit (osInfo : OSInfo) (initConfig : InitConfig) (RunCommand : Executor)
    (st : RunState) (unit : Package) : RunState :=
  match HandlePackage unit osInfo initConfig RunCommand st.calls with
  | (some err, calls) =>
    { calls := calls,
      failedPackages := st.failedPackages ++ ["Package " ++ unit.Name ++ ": " ++ err.Error] }
  | (none, calls) => { calls := calls, failedPackages := st.failedPackages }

/-! ## Concrete inputs used by the worked examples -/

/-- Build a package-manager entry whose templates are `<name> install -y` and
`<name> remove -y`. -/
def mkManager (name : String) (elevated : Bool) : PackageManagerInfo :=
  { Name := name, Install := name ++ " install -y", Remove := name ++ " remove -y",
    Elevated := elevated }

/-- An OS info of a Debian-like machine: `apt` is the default manager and runs elevated, as do
the other system managers; `brew`, `nix` and `cargo` do not. -/
def exampleOSInfo : OSInfo :=
  { OS := "linux",
    PackageManager :=
      { Default := mkManager "apt" true, Brew := mkManager "brew" false,
        Apt := mkManager "apt" true, Dnf := mkManager "dnf" true,
        Eopkg := mkManager "eopkg" true, Pacman := mkManager "pacman" true,
        Zypper := mkManager "zypper" true, Emerge := mkManager "emerge" true,
        Nix := mkManager "nix" false, Cargo := mkManager "cargo" false } }

/-- An init configuration with format `yaml` and all flags off. -/
def exampleInitConfig : InitConfig :=
  { Init := { Format := "yaml" },
    Variables :=
      { Flags :=
          { Debug := false, LogLevel := "", Interactive := false, ForceBootstrap := false,
            GHAPIToken := "", SSHKey := "", SkipVersionCheck := false,
            InitTemplatesEnabled := false } } }

/-- An executor that fails exactly on the commands whose argument list is `["x"]`. -/
def failOnX : Executor := fun _ cmd _ =>
  if cmd.Args = ["x"] then some "exit status 100" else none

/-- Collaborators whose decoder yields the given entries for every input, whose path setup
succeeds and whose executor is the given one. -/
def exampleEnv (packages : List Package) (run : Executor) : Collaborators :=
  { ReadFile := fun _ => .ok [],
    UnmarshalBlueprint := fun _ _ => .ok { Packages := packages },
    SetPaths := none,
    RunCommand := run }

/-- The entry `names: [x, y], action: install, packageManager: apt`. -/
def entryXY : Package :=
  { Name := "", Names := ["x", "y"], Elevated := false, Action := "install",
    PackageManager := "apt" }

/-- Collaborators whose decoder yields the `n`-th of the given blueprints for the one-byte
input `[n]`, whose path setup succeeds and whose executor is the given one. -/
def variantEnv (variants : List (List Package)) (run : Executor) : Collaborators :=
  { ReadFile := fun _ => .ok [],
    UnmarshalBlueprint := fun data _ =>
      match data with
      | [n] => .ok { Packages := variants.getD n.toNat [] }
      | _ => .error "unexpected end of input",
    SetPaths := none,
    RunCommand := run }

/-- The entry `name: z, action: install, packageManager: unknown-xyz`. -/
def entryUnknown : Package :=
  { Name := "z", Names := [], Elevated := false, Action := "install",
    PackageManager := "unknown-xyz" }

/-- The entry `name: w, action: install, packageManager: apt`. -/
def entryW : Package :=
  { Name := "w", Names := [], Elevated := false, Action := "install", PackageManager := "apt" }

/-! ## Reference definitions for the file order -/

/-- A well-formed element of an order spec (specification, section 4.2): a bare file name, or
a group name with its ordered file names. -/
inductive OrderElem where
  | bare (fileName : String)
  | group (groupName : String) (fileNames : List String)
deriving DecidableEq, Repr

/-- The dynamically typed value a well-formed element is decoded to: a string, or a map with
the single key `groupName` whose value is the list of the file names. -/
def OrderElem.toValue : OrderElem → Value
  | .bare fileName => .str fileName
  | .group groupName fileNames => .strMap [(groupName, .slice (fileNames.map .str))]

/-- Expansion of a well-formed element (specification, section 4.2): a bare name is itself; a
group is `join(groupName, fileName)` for each of its file names in declared order. -/
def OrderElem.expand : OrderElem → List String
  | .bare fileName => [fileName]
  | .group groupName fileNames => fileNames.map fun fileName => Join [groupName, fileName]

/-- Paths contributed by one key of a group: nothing unless the value is a list, and then one
path per string of the list. -/
def expandGroup (processor : String) (files : Value) : List String :=
  match files with
  | .slice filesArr =>
    filesArr.filterMap fun file =>
      match file with
      | .str fileStr => some (Join [processor, fileStr])
      | _ => none
  | _ => []

/-- Paths contributed by one element of the order spec. -/
def expandItem (item : Value) : List String :=
  match item with
  | .str str => [str]
  | .strMap subOrder => subOrder.flatMap fun entry => expandGroup entry.1 entry.2
  | _ => []

/-- Whether a value is a string. -/
def isFileName : Value → Bool
  | .str _ => true
  | _ => false

/-- Whether an element of the order spec is malformed: neither a string nor a string-keyed
map. -/
def isMalformedItem : Value → Bool
  | .str _ => false
  | .strMap _ => false
  | _ => true

/-- A group without its malformed parts: the keys whose value is not a list are removed, and
so are the non-string entries of the lists. -/
def dropMalformedGroups (subOrder : List (String × Value)) : List (String × Value) :=
  subOrder.filterMap fun entry =>
    match entry.2 with
    | .slice filesArr => some (entry.1, .slice (filesArr.filter isFileName))
    | _ => none

/-- An order spec without its malformed parts. -/
def dropMalformed (order : List Value) : List Value :=
  order.filterMap fun item =>
    match item with
    | .str str => some (.str str)
    | .strMap subOrder => some (.strMap (dropMalformedGroups subOrder))
    | _ => none

/-- Whether an element of the order spec is well-formed: a string, or a string-keyed map all
of whose values are lists of strings. -/
def isWellFormedItem : Value → Bool
  | .str _ => true
  | .strMap subOrder =>
    subOrder.all fun entry =>
      match entry.2 with
      | .slice filesArr => filesArr.all isFileName
      | _ => false
  | _ => false

/-- The order spec `["a.yaml", {"packages": ["b.yaml", "c.yaml"]}]`. -/
def exampleOrder : List OrderElem :=
  [.bare "a.yaml", .group "packages" ["b.yaml", "c.yaml"]]

/-- An order spec with malformed parts around and inside a group: a number and a map with
non-string keys at top level, a key whose value is a string, a number among file names. -/
def malformedOrder : List Value :=
  [.other "int", .str "a.yaml", .other "map[interface]interface",
   .strMap [("broken", .str "b.yaml"),
            ("packages", .slice [.str "b.yaml", .other "int", .str "c.yaml"])],
   .slice [.str "loose.yaml"], .str "d.yaml"]

/-! ## blueprints.go: the blueprints location

The settings `GetBlueprintsLocation` reads through viper are a parameter.  The file system
is the state the function observes through `os.Stat`; the go-git operations are abstract
results that may change it.  The result records, besides the returned path and error, the
git operations attempted, the paths handed to `os.Stat` and the init file the function
reports using, each in order. -/

/-- The three settings `GetBlueprintsLocation` reads: `repository.blueprints.localPath`,
`repository.blueprints.remoteStoreType` and `repository.blueprints.remoteStoreURL`. -/
structure BlueprintsSettings where
  localPath : String
  remoteStoreType : String
  remoteStoreURL : String
deriving DecidableEq, Repr

/-- State of the file system as the code observes it: for a path, whether `os.Stat` fails
with an error for which `os.IsNotExist` holds. -/
abbrev FileSystem := String → Bool

/-- Error returned by `worktree.Pull`: its text, and whether
`errors.Is(err, git.NoErrAlreadyUpToDate)` holds for it. -/
structure PullError where
  message : String
  alreadyUpToDate : Bool
deriving DecidableEq, Repr

/-- The go-git operations of `GetBlueprintsLocation` as abstract results on the observed file
system: the returned error (`none` for `nil`) and, for clone and pull, the file system
afterwards. -/
structure Git where
  /-- Function `git.PlainClone`, from the local path and the URL. -/
  PlainClone : FileSystem → String → String → Option String × FileSystem
  /-- Function `git.PlainOpen`, from the local path. -/
  PlainOpen : FileSystem → String → Option String
  /-- Method `repo.Worktree` of the repository opened at the local path. -/
  Worktree : FileSystem → String → Option String
  /-- Method `worktree.Pull` of the repository opened at the local path. -/
  Pull : FileSystem → String → Option PullError × FileSystem

/-- A go-git operation attempted by `GetBlueprintsLocation`. -/
inductive GitOp where
  | clone (localPath : String) (url : String)
  | plainOpen (localPath : String)
  | worktree (localPath : String)
  | pull (localPath : String)
deriving DecidableEq, Repr

/-- The errors `GetBlueprintsLocation` can return, one per `fmt.Errorf` call of its body. -/
inductive LocationError where
  | cloning (err : String)
  | opening (err : String)
  | gettingWorktree (err : String)
  | pulling (err : String)
  | initFileNotFound
deriving DecidableEq, Repr

/-- Text of the error, as the `fmt.Errorf` format strings of `GetBlueprintsLocation` render
it. -/
def LocationError.Error : LocationError → String
  | .cloning err => "error cloning Git repository: " ++ err
  | .opening err => "error opening Git repository: " ++ err
  | .gettingWorktree err => "error getting worktree: " ++ err
  | .pulling err => "error pulling changes from Git repository: " ++ err
  | .initFileNotFound => "init file not found in the blueprints location"

/-- Outcome of `GetBlueprintsLocation`: the returned path and error, the git operations
attempted, the paths handed to `os.Stat`, and the init file named by the final log line (the
value of `initFilePath` when the function returns the local path). -/
structure LocationResult where
  path : String
  err : Option LocationError
  gitOps : List GitOp
  stats : List String
  initFilePath : Option String
deriving DecidableEq, Repr

/-- Init-file probe of `GetBlueprintsLocation` (blueprints.go lines 55-69), run on the file
system `fs` after the git operations `gitOps` and the `os.Stat` calls `stats`. -/
def probeInit (fs : FileSystem) (localPath : String) (gitOps : List GitOp)
    (stats : List String) : LocationResult :=
  let yamlPath := Join [localPath, "init.yaml"]
  if fs yamlPath then
    let jsonPath := Join [localPath, "init.json"]
    if fs jsonPath then
      let tomlPath := Join [localPath, "init.toml"]
      if fs tomlPath then
        { path := "", err := some .initFileNotFound, gitOps := gitOps,
          stats := stats ++ [yamlPath, jsonPath, tomlPath], initFilePath := none }
      else
        { path := localPath, err := none, gitOps := gitOps,
          stats := stats ++ [yamlPath, jsonPath, tomlPath], initFilePath := some tomlPath }
    else
      { path := localPath, err := none, gitOps := gitOps,
        stats := stats ++ [yamlPath, jsonPath], initFilePath := some jsonPath }
  else
    { path := localPath, err := none, gitOps := gitOps,
      stats := stats ++ [yamlPath], initFilePath := some yamlPath }

/-- Function `GetBlueprintsLocation` (blueprints.go lines 15-70). -/
def GetBlueprintsLocation (settings : BlueprintsSettings) (git : Git) (fs : FileSystem)
    (update : Bool) : LocationResult :=
  let localPath := settings.localPath
  let remoteStoreType := settings.remoteStoreType
  let remoteStoreURL := settings.remoteStoreURL
  if remoteStoreType = "git" then
    -- Check if the local path already exists
    if fs localPath then
      -- If the local path doesn't exist, clone the Git repository
      match git.PlainClone fs localPath remoteStoreURL with
      | (some err, _) =>
        { path := "", err := some (.cloning err),
          gitOps := [.clone localPath remoteStoreURL], stats := [localPath],
          initFilePath := none }
      | (none, cloned) =>
        probeInit cloned localPath [.clone localPath remoteStoreURL] [localPath]
    else if update then
      -- If the local path exists and an update is requested, perform a git pull
      match git.PlainOpen fs localPath with
      | some err =>
        { path := "", err := some (.opening err), gitOps := [.plainOpen localPath],
          stats := [localPath], initFilePath := none }
      | none =>
        match git.Worktree fs localPath with
        | some err =>
          { path := "", err := some (.gettingWorktree err),
            gitOps := [.plainOpen localPath, .worktree localPath], stats := [localPath],
            initFilePath := none }
        | none =>
          match git.Pull fs localPath with
          | (some err, pulled) =>
            if ¬ err.alreadyUpToDate then
              { path := "", err := some (.pulling err.message),
                gitOps := [.plainOpen localPath, .worktree localPath, .pull localPath],
                stats := [localPath], initFilePath := none }
            else
              probeInit pulled localPath
                [.plainOpen localPath, .worktree localPath, .pull localPath] [localPath]
          | (none, pulled) =>
            probeInit pulled localPath
              [.plainOpen localPath, .worktree localPath, .pull localPath] [localPath]
    else
      probeInit fs localPath [] [localPath]
  else
    probeInit fs localPath [] []

/-! ## Reference definitions for the failure report -/

/-- Outcome of handling each unit in turn: the unit with the error `HandlePackage` returned for
it (`none` when it succeeded), the executor seeing the commands of the units before it. -/
def unitOutcomes (osInfo : OSInfo) (initConfig : InitConfig) (RunCommand : Executor) :
    List Package → List Command → List (Package × Option PkgError)
  | [], _ => []
  | unit :: rest, calls =>
    (unit, (HandlePackage unit osInfo initConfig RunCommand calls).1)
      :: unitOutcomes osInfo initConfig RunCommand rest
          (HandlePackage unit osInfo initConfig RunCommand calls).2

/-- Line of the failure report for an outcome, as the code writes it: nothing for a success,
`Package <unitName>: <error>` for a failure. -/
def reportLine (outcome : Package × Option PkgError) : Option String :=
  match outcome.2 with
  | some err => some ("Package " ++ outcome.1.Name ++ ": " ++ err.Error)
  | none => none

/-- Line of the failure report for an outcome, as the specification describes it: nothing for
a success, `<unitName>: <error>` for a failure. -/
def specReportLine (outcome : Package × Option PkgError) : Option String :=
  match outcome.2 with
  | some err => some (outcome.1.Name ++ ": " ++ err.Error)
  | none => none

/-- Whether a string consists of one plain path element: non-empty, without a separator, and
neither `.` nor `..`. -/
def isPlainName (name : String) : Bool :=
  name.toList ≠ [] && !name.toList.contains '/' && name.toList ≠ ['.']
    && name.toList ≠ ['.', '.']

/-- The file system in which only the listed paths exist. -/
def onlyFiles (paths : List String) : FileSystem := fun path => !paths.contains path

/-- Git operations that all succeed, a clone or pull leaving the listed paths on disk. -/
def gitSucceeds (after : List String) : Git :=
  { PlainClone := fun _ _ _ => (none, onlyFiles after),
    PlainOpen := fun _ _ => none,
    Worktree := fun _ _ => none,
    Pull := fun _ _ => (none, onlyFiles after) }

/-- Blueprint settings with a git remote and the local path `bp`. -/
def exampleSettings : BlueprintsSettings :=
  { localPath := "bp", remoteStoreType := "git",
    remoteStoreURL := "https://example/repo.git" }

/-! ## Reference definitions for the blueprints location -/

/-- Source step of the specification (section 4.1): with a git remote, clone when the local
path does not exist, and open, get the worktree and pull when it exists and an update is
requested, an already-up-to-date pull not being an error; otherwise use the local path as it
is.  The result is the fatal error, or the file system the init probe then sees. -/
def specSourceStep (settings : BlueprintsSettings) (git : Git) (fs : FileSystem)
    (update : Bool) : Except LocationError FileSystem :=
  if settings.remoteStoreType = "git" ∧ fs settings.localPath = true then
    match git.PlainClone fs settings.localPath settings.remoteStoreURL with
    | (some err, _) => .error (.cloning err)
    | (none, cloned) => .ok cloned
  else if settings.remoteStoreType = "git" ∧ update = true then
    match git.PlainOpen fs settings.localPath, git.Worktree fs settings.localPath,
        git.Pull fs settings.localPath with
    | some err, _, _ => .error (.opening err)
    | none, some err, _ => .error (.gettingWorktree err)
    | none, none, (none, pulled) => .ok pulled
    | none, none, (some err, pulled) =>
      if err.alreadyUpToDate then .ok pulled else .error (.pulling err.message)
  else .ok fs

/-- The three init files of a local path, in the precedence of the specification. -/
def initCandidates (localPath : String) : List String :=
  [Join [localPath, "init.yaml"], Join [localPath, "init.json"], Join [localPath, "init.toml"]]

/-- The first of the given paths that exists. -/
def firstExisting (fs : FileSystem) (paths : List String) : Option String :=
  paths.find? fun path => !fs path

/-- The paths a first-existing search looks at: each path up to and including the first one
that exists. -/
def probedPaths (fs : FileSystem) : List String → List String
  | [] => []
  | path :: rest => path :: (if fs path then probedPaths fs rest else [])

/-- The git operations the code attempts, by the settings, the existence of the local path, the
update flag and the results of opening the repository and getting its worktree. -/
def expectedGitOps (settings : BlueprintsSettings) (git : Git) (fs : FileSystem)
    (update : Bool) : List GitOp :=
  if settings.remoteStoreType = "git" then
    if fs settings.localPath = true then
      [.clone settings.localPath settings.remoteStoreURL]
    else if update = true then
      if git.PlainOpen fs settings.localPath = none then
        if git.Worktree fs settings.localPath = none then
          [.plainOpen settings.localPath, .worktree settings.localPath,
           .pull settings.localPath]
        else [.plainOpen settings.localPath, .worktree settings.localPath]
      else [.plainOpen settings.localPath]
    else []
  else []

/-- Git operations of a local path that is not a repository: opening it fails. -/
def gitCannotOpen : Git :=
  { PlainClone := fun fs _ _ => (none, fs),
    PlainOpen := fun _ _ => some "repository does not exist",
    Worktree := fun _ _ => none,
    Pull := fun fs _ => (none, fs) }

/-- Git operations whose pull returns the given error and leaves the listed paths on disk. -/
def gitPullFails (err : PullError) (after : List String) : Git :=
  { PlainClone := fun _ _ _ => (none, onlyFiles after),
    PlainOpen := fun _ _ => none,
    Worktree := fun _ _ => none,
    Pull := fun _ _ => (some err, onlyFiles after) }

/-- Git operations whose clone fails. -/
def gitCloneFails : Git :=
  { PlainClone := fun fs _ _ => (some "authentication required", fs),
    PlainOpen := fun _ _ => none,
    Worktree := fun _ _ => none,
    Pull := fun fs _ => (none, fs) }

/-- Collaborators of a later run: the same as `env`, the executor having already been handed
the commands `seen`. -/
def laterRun (env : Collaborators) (seen : List Command) : Collaborators :=
  { ReadFile := env.ReadFile,
    UnmarshalBlueprint := env.UnmarshalBlueprint,
    SetPaths := env.SetPaths,
    RunCommand := fun history cmd debug => env.RunCommand (seen ++ history) cmd debug }

/-- The path made of the given elements separated by single separators. -/
def slashJoin : List String → String
  | [] => ""
  | [element] => element
  | element :: rest => element ++ "/" ++ slashJoin rest

/-- Whether the elements form a clean relative path: there is at least one element and each is
a plain name. -/
def isCleanPath (elements : List String) : Bool :=
  elements ≠ [] && elements.all isPlainName

/-! ## Lemmas on manager resolution and `HandlePackage` -/

theorem resolveManager_eq_spec (pm : String) (osInfo : OSInfo) :
    resolveManager pm osInfo =
      match specResolveManager pm osInfo with
      | some m => .ok (m.Install, m.Remove, m.Elevated)
      | none => .error (.unsupportedManager pm) := by
  by_cases h0 : pm = ""
  · subst h0; simp [resolveManager, specResolveManager]
  by_cases h1 : pm = "brew"
  · subst h1; simp [resolveManager, specResolveManager, managerTable, List.lookup]
  by_cases h2 : pm = "apt"
  · subst h2; simp [resolveManager, specResolveManager, managerTable, List.lookup]
  by_cases h3 : pm = "dnf"
  · subst h3; simp [resolveManager, specResolveManager, managerTable, List.lookup]
  by_cases h4 : pm = "eopkg"
  · subst h4; simp [resolveManager, specResolveManager, managerTable, List.lookup]
  by_cases h5 : pm = "pacman"
  · subst h5; simp [resolveManager, specResolveManager, managerTable, List.lookup]
  by_cases h6 : pm = "zypper"
  · subst h6; simp [resolveManager, specResolveManager, managerTable, List.lookup]
  by_cases h7 : pm = "emerge"
  · subst h7; simp [resolveManager, specResolveManager, managerTable, List.lookup]
  by_cases h8 : pm = "nix"
  · subst h8; simp [resolveManager, specResolveManager, managerTable, List.lookup]
  by_cases h9 : pm = "cargo"
  · subst h9; simp [resolveManager, specResolveManager, managerTable, List.lookup]
  have e1 : (pm == "brew") = false := by simpa using h1
  have e2 : (pm == "apt") = false := by simpa using h2
  have e3 : (pm == "dnf") = false := by simpa using h3
  have e4 : (pm == "eopkg") = false := by simpa using h4
  have e5 : (pm == "pacman") = false := by simpa using h5
  have e6 : (pm == "zypper") = false := by simpa using h6
  have e7 : (pm == "emerge") = false := by simpa using h7
  have e8 : (pm == "nix") = false := by simpa using h8
  have e9 : (pm == "cargo") = false := by simpa using h9
  have hl : (managerTable osInfo.PackageManager).lookup pm = none := by
    simp [managerTable, List.lookup, e1, e2, e3, e4, e5, e6, e7, e8, e9]
  by_cases ha : pm ∈ aurHelpers
  · simp only [specResolveManager, hl, if_neg h0, if_pos ha]
    simp only [aurHelpers, List.mem_cons, List.mem_singleton, List.not_mem_nil, or_false] at ha
    simp [resolveManager, h0, h1, h2, h3, h4, h5, h6, h7, h8, h9, ha]
  · simp only [specResolveManager, hl, if_neg h0, if_neg ha]
    simp only [aurHelpers, List.mem_cons, List.mem_singleton, List.not_mem_nil, or_false,
      not_or] at ha
    simp [resolveManager, h0, h1, h2, h3, h4, h5, h6, h7, h8, h9, ha]

theorem specResolveManager_of_resolved (pm : String) (osInfo : OSInfo)
    (install remove : String) (elevated : Bool)
    (h : resolveManager pm osInfo = .ok (install, remove, elevated)) :
    ∃ m, specResolveManager pm osInfo = some m ∧ m.Install = install ∧ m.Remove = remove
      ∧ m.Elevated = elevated := by
  rw [resolveManager_eq_spec] at h
  cases hs : specResolveManager pm osInfo with
  | none => simp [hs] at h
  | some m =>
    simp only [hs, Except.ok.injEq, Prod.mk.injEq] at h
    exact ⟨m, rfl, h.1, h.2.1, h.2.2⟩

theorem HandlePackage_of_command (pkg : Package) (osInfo : OSInfo) (initConfig : InitConfig)
    (run : Executor) (calls : List Command) (cmd : Command)
    (h : specCommand osInfo pkg = some cmd) :
    HandlePackage pkg osInfo initConfig run calls =
      ((run calls cmd initConfig.Variables.Flags.Debug).map (PkgError.processing pkg.Name),
        calls ++ [cmd]) := by
  unfold specCommand at h
  unfold HandlePackage
  rw [resolveManager_eq_spec]
  cases hm : specResolveManager pkg.PackageManager osInfo with
  | none => simp [hm] at h
  | some m =>
    simp only [hm] at h
    by_cases hi : pkg.Action = "install"
    · simp only [hi, if_true] at h
      obtain rfl := Option.some.inj h
      cases he : pkg.Elevated <;> cases hr : run calls
        { Exec := m.Install, Args := [pkg.Name], Elevated := m.Elevated || pkg.Elevated }
        initConfig.Variables.Flags.Debug <;> simp_all
    · by_cases hr : pkg.Action = "remove"
      · simp only [hr, if_true, show ¬ ("remove" = "install") by decide, if_false] at h
        obtain rfl := Option.some.inj h
        cases he : pkg.Elevated <;> cases hx : run calls
          { Exec := m.Remove, Args := [pkg.Name], Elevated := m.Elevated || pkg.Elevated }
          initConfig.Variables.Flags.Debug <;> simp_all
      · simp [hi, hr] at h

theorem HandlePackage_of_no_manager (pkg : Package) (osInfo : OSInfo) (initConfig : InitConfig)
    (run : Executor) (calls : List Command)
    (h : specResolveManager pkg.PackageManager osInfo = none) :
    HandlePackage pkg osInfo initConfig run calls =
      (some (.unsupportedManager pkg.PackageManager), calls) := by
  unfold HandlePackage
  rw [resolveManager_eq_spec, h]

theorem HandlePackage_of_no_action (pkg : Package) (osInfo : OSInfo) (initConfig : InitConfig)
    (run : Executor) (calls : List Command) (m : PackageManagerInfo)
    (h : specResolveManager pkg.PackageManager osInfo = some m)
    (hi : pkg.Action ≠ "install") (hr : pkg.Action ≠ "remove") :
    HandlePackage pkg osInfo initConfig run calls =
      (some (.unsupportedAction pkg.Action), calls) := by
  unfold HandlePackage
  rw [resolveManager_eq_spec, h]
  simp [hi, hr]

theorem HandlePackage_calls (pkg : Package) (osInfo : OSInfo) (initConfig : InitConfig)
    (run : Executor) (calls : List Command) :
    (HandlePackage pkg osInfo initConfig run calls).2 =
      calls ++ (specCommand osInfo pkg).toList := by
  cases hc : specCommand osInfo pkg with
  | some cmd => rw [HandlePackage_of_command _ _ _ _ _ _ hc]; rfl
  | none =>
    cases hm : specResolveManager pkg.PackageManager osInfo with
    | none => rw [HandlePackage_of_no_manager _ _ _ _ _ hm]; simp
    | some m =>
      have hi : pkg.Action ≠ "install" := by
        intro hi; simp [specCommand, hm, hi] at hc
      have hr : pkg.Action ≠ "remove" := by
        intro hr; simp [specCommand, hm, hr] at hc
      rw [HandlePackage_of_no_action _ _ _ _ _ m hm hi hr]; simp

/-! ## Lemmas on the processing loops -/

theorem stepUnit_calls (osInfo : OSInfo) (initConfig : InitConfig) (run : Executor)
    (st : RunState) (unit : Package) :
    (stepUnit osInfo initConfig run st unit).calls =
      st.calls ++ (specCommand osInfo unit).toList := by
  have h := HandlePackage_calls unit osInfo initConfig run st.calls
  unfold stepUnit
  cases hp : HandlePackage unit osInfo initConfig run st.calls with
  | mk e c =>
    rw [hp] at h
    cases e <;> simpa using h

theorem foldl_stepUnit_calls (osInfo : OSInfo) (initConfig : InitConfig) (run : Executor)
    (units : List Package) (st : RunState) :
    (units.foldl (stepUnit osInfo initConfig run) st).calls =
      st.calls ++ units.filterMap (specCommand osInfo) := by
  induction units generalizing st with
  | nil => simp
  | cons u us ih =>
    rw [List.foldl_cons, ih, stepUnit_calls, List.filterMap_cons]
    cases specCommand osInfo u <;> simp

theorem entryUnits_of_names (pkg : Package) (h : pkg.Names.length > 0) :
    entryUnits pkg = pkg.Names.map fun name =>
      { Name := name, Names := [], Elevated := pkg.Elevated, Action := pkg.Action,
        PackageManager := pkg.PackageManager } := by
  have hne : pkg.Names ≠ [] := by
    intro h0; rw [h0] at h; simp at h
  unfold entryUnits
  rw [if_pos hne]

theorem entryUnits_of_no_names (pkg : Package) (h : ¬ pkg.Names.length > 0) :
    entryUnits pkg = [pkg] := by
  cases pkg with
  | mk n ns e a pm =>
    cases ns with
    | nil => simp [entryUnits]
    | cons x xs => simp at h

theorem dataLoop_eq_foldl (packages : List Package) (osInfo : OSInfo)
    (initConfig : InitConfig) (run : Executor) (st : RunState) :
    dataLoop packages osInfo initConfig run st =
      (specUnits packages).foldl (stepUnit osInfo initConfig run) st := by
  induction packages generalizing st with
  | nil => rfl
  | cons p ps ih =>
    have hstep : dataLoop (p :: ps) osInfo initConfig run st =
        dataLoop ps osInfo initConfig run
          ((entryUnits p).foldl (stepUnit osInfo initConfig run) st) := by
      unfold dataLoop
      rw [List.foldl_cons]
      congr 1
      by_cases hn : p.Names.length > 0
      · rw [if_pos hn, entryUnits_of_names p hn, List.foldl_map]
        rfl
      · rw [if_neg hn, entryUnits_of_no_names p hn]
        rfl
    rw [hstep, ih]
    simp [specUnits, List.flatMap_cons, List.foldl_append]

theorem fileLoop_eq_foldl (packages : List Package) (osInfo : OSInfo)
    (initConfig : InitConfig) (run : Executor) (st : RunState) :
    fileLoop packages osInfo initConfig run st =
      (specUnits packages).foldl (stepUnit osInfo initConfig run) st := by
  induction packages generalizing st with
  | nil => rfl
  | cons p ps ih =>
    have hstep : fileLoop (p :: ps) osInfo initConfig run st =
        fileLoop ps osInfo initConfig run
          ((entryUnits p).foldl (stepUnit osInfo initConfig run) st) := by
      unfold fileLoop
      rw [List.foldl_cons]
      congr 1
      by_cases hn : p.Names.length > 0
      · rw [if_pos hn, entryUnits_of_names p hn, List.foldl_map]
        rfl
      · rw [if_neg hn, entryUnits_of_no_names p hn]
        rfl
    rw [hstep, ih]
    simp [specUnits, List.flatMap_cons, List.foldl_append]

theorem specResolveManager_eq_none_iff (pm : String) (osInfo : OSInfo) :
    specResolveManager pm osInfo = none ↔ (pm ≠ "" ∧ pm ∉ supportedManagers) := by
  have h := resolveManager_eq_spec pm osInfo
  constructor
  · intro hn
    rw [hn] at h
    refine ⟨?_, ?_⟩
    · intro h0; subst h0; simp [resolveManager] at h
    · intro hmem
      simp only [supportedManagers, List.mem_cons, List.mem_singleton, List.not_mem_nil,
        or_false] at hmem
      rcases hmem with h1 | h1 | h1 | h1 | h1 | h1 | h1 | h1 | h1 | h1 | h1 | h1 | h1 | h1 | h1
        <;> subst h1 <;> simp [resolveManager] at h
  · rintro ⟨h0, hmem⟩
    simp only [supportedManagers, List.mem_cons, List.mem_singleton, List.not_mem_nil,
      or_false, not_or] at hmem
    cases hs : specResolveManager pm osInfo with
    | none => rfl
    | some m =>
      rw [hs] at h
      simp [resolveManager, h0, hmem] at h

theorem stepUnit_split (osInfo : OSInfo) (initConfig : InitConfig) (run : Executor)
    (st : RunState) (unit : Package) :
    stepUnit osInfo initConfig run st unit =
      { calls := (stepUnit osInfo initConfig run
          { calls := st.calls, failedPackages := [] } unit).calls,
        failedPackages := st.failedPackages ++ (stepUnit osInfo initConfig run
          { calls := st.calls, failedPackages := [] } unit).failedPackages } := by
  unfold stepUnit
  cases hp : HandlePackage unit osInfo initConfig run st.calls with
  | mk e c => cases e <;> simp

theorem foldl_stepUnit_failed (osInfo : OSInfo) (initConfig : InitConfig) (run : Executor)
    (units : List Package) (st : RunState) :
    (units.foldl (stepUnit osInfo initConfig run) st).failedPackages =
      st.failedPackages ++ (units.foldl (stepUnit osInfo initConfig run)
        { calls := st.calls, failedPackages := [] }).failedPackages := by
  induction units generalizing st with
  | nil => simp
  | cons u us ih =>
    rw [List.foldl_cons, List.foldl_cons, ih (stepUnit osInfo initConfig run st u),
      ih (stepUnit osInfo initConfig run { calls := st.calls, failedPackages := [] } u)]
    rw [stepUnit_split osInfo initConfig run st u]
    simp [List.append_assoc]

theorem foldl_stepUnit_no_manager (osInfo : OSInfo) (initConfig : InitConfig) (run : Executor)
    (units : List Package) (st : RunState)
    (h : ∀ u ∈ units, specResolveManager u.PackageManager osInfo = none) :
    units.foldl (stepUnit osInfo initConfig run) st =
      { calls := st.calls,
        failedPackages := st.failedPackages ++ units.map fun u =>
          "Package " ++ u.Name ++ ": " ++ (PkgError.unsupportedManager u.PackageManager).Error } := by
  induction units generalizing st with
  | nil => simp
  | cons u us ih =>
    have hu : stepUnit osInfo initConfig run st u =
        { calls := st.calls,
          failedPackages := st.failedPackages ++
            ["Package " ++ u.Name ++ ": " ++ (PkgError.unsupportedManager u.PackageManager).Error] } := by
      unfold stepUnit
      rw [HandlePackage_of_no_manager _ _ _ _ _ (h u (List.mem_cons_self _ _))]
    rw [List.foldl_cons, hu, ih _ (fun v hv => h v (List.mem_cons_of_mem _ hv))]
    simp [List.append_assoc]

theorem entryUnits_manager (entry : Package) :
    ∀ u ∈ entryUnits entry, u.PackageManager = entry.PackageManager := by
  intro u hu
  unfold entryUnits at hu
  split at hu
  · simp only [List.mem_map] at hu
    obtain ⟨n, _, rfl⟩ := hu
    rfl
  · simp only [List.mem_singleton] at hu
    subst hu
    rfl

/-! ## The package processors: order of the units and result of the run -/

/-- C1: for every list of decoded entries and every executor, the commands
`ProcessPackagesFromData` hands to the executor are exactly the commands of the units of the
blueprint in declaration order (one unit per element of a non-empty `names`, else the single
`name`, each with the entry's manager, action and elevated flag), without those units whose
manager or action is unsupported; the sequence does not depend on the executor's answers.
The same holds for `ProcessPackagesFromFile`. -/
theorem C1_units_attempted_in_declaration_order (env : Collaborators)
    (blueprintData : List UInt8) (blueprintFile blueprintDir : String) (fileBytes : List UInt8)
    (osInfo : OSInfo) (initConfig : InitConfig) (packages : List Package)
    (hdec : env.UnmarshalBlueprint blueprintData initConfig.Init.Format
      = .ok { Packages := packages })
    (hread : env.ReadFile blueprintFile = .ok fileBytes)
    (hdecFile : env.UnmarshalBlueprint fileBytes (Ext blueprintFile)
      = .ok { Packages := packages })
    (hset : env.SetPaths = none) :
    (ProcessPackagesFromData env blueprintData blueprintDir osInfo initConfig).calls
        = (specUnits packages).filterMap (specCommand osInfo)
      ∧ (ProcessPackagesFromFile env blueprintFile blueprintDir osInfo initConfig).calls
        = (specUnits packages).filterMap (specCommand osInfo) := by
  constructor
  · simp only [ProcessPackagesFromData, hdec, hset]
    rw [dataLoop_eq_foldl, foldl_stepUnit_calls]
    rfl
  · simp only [ProcessPackagesFromFile, hread, hdecFile, hset]
    rw [fileLoop_eq_foldl, foldl_stepUnit_calls]
    rfl

/-- Worked example for C1: the entry `names: [x, y], action: install, packageManager: apt`, with
an executor that fails on `x`, yields exactly two executor calls, for `x` then `y`, both with
the install template of `apt`. -/
theorem C1_units_attempted_in_declaration_order_witness :
    (ProcessPackagesFromData (exampleEnv [entryXY] failOnX) [] "packages" exampleOSInfo
        exampleInitConfig).calls
        = [{ Exec := "apt install -y", Args := ["x"], Elevated := true },
           { Exec := "apt install -y", Args := ["y"], Elevated := true }]
      ∧ (ProcessPackagesFromFile (exampleEnv [entryXY] failOnX) "packages/base.yaml"
          "packages" exampleOSInfo exampleInitConfig).calls
        = [{ Exec := "apt install -y", Args := ["x"], Elevated := true },
           { Exec := "apt install -y", Args := ["y"], Elevated := true }]
      ∧ (ProcessPackagesFromData (exampleEnv [entryXY] failOnX) [] "packages" exampleOSInfo
          exampleInitConfig).failedPackages
        = ["Package x: error processing package x: exit status 100"] := by
  have h := C1_units_attempted_in_declaration_order (exampleEnv [entryXY] failOnX) []
    "packages/base.yaml" "packages" [] exampleOSInfo exampleInitConfig [entryXY] rfl rfl rfl rfl
  refine ⟨h.1.trans (by decide), h.2.trans (by decide), by decide⟩

/-- C2: once the blueprint is read and decoded and the paths are set, both processors return
no error, whatever the entries and whatever the executor answers. -/
theorem C2_run_returns_no_error (env : Collaborators)
    (blueprintData : List UInt8) (blueprintFile blueprintDir : String) (fileBytes : List UInt8)
    (osInfo : OSInfo) (initConfig : InitConfig) (decoded decodedFile : PackagesData)
    (hdec : env.UnmarshalBlueprint blueprintData initConfig.Init.Format = .ok decoded)
    (hread : env.ReadFile blueprintFile = .ok fileBytes)
    (hdecFile : env.UnmarshalBlueprint fileBytes (Ext blueprintFile) = .ok decodedFile)
    (hset : env.SetPaths = none) :
    (ProcessPackagesFromData env blueprintData blueprintDir osInfo initConfig).err = none
      ∧ (ProcessPackagesFromFile env blueprintFile blueprintDir osInfo initConfig).err
        = none := by
  constructor
  · simp only [ProcessPackagesFromData, hdec, hset]
  · simp only [ProcessPackagesFromFile, hread, hdecFile, hset]

/-- Worked example for C2: a blueprint with an unsupported manager, an unsupported action and a
failing command still makes both processors return no error. -/
theorem C2_run_returns_no_error_witness :
    (ProcessPackagesFromData (exampleEnv
        [entryXY, { entryXY with PackageManager := "unknown-xyz" },
          { entryXY with Action := "upgrade" }] failOnX)
        [] "packages" exampleOSInfo exampleInitConfig).err = none
      ∧ (ProcessPackagesFromFile (exampleEnv
        [entryXY, { entryXY with PackageManager := "unknown-xyz" },
          { entryXY with Action := "upgrade" }] failOnX)
        "packages/base.yaml" "packages" exampleOSInfo exampleInitConfig).err = none
      ∧ (ProcessPackagesFromData (exampleEnv
        [entryXY, { entryXY with PackageManager := "unknown-xyz" },
          { entryXY with Action := "upgrade" }] failOnX)
        [] "packages" exampleOSInfo exampleInitConfig).failedPackages
        = ["Package x: error processing package x: exit status 100",
           "Package x: unsupported package manager: unknown-xyz",
           "Package y: unsupported package manager: unknown-xyz",
           "Package x: unsupported action: upgrade",
           "Package y: unsupported action: upgrade"] := by
  have h := C2_run_returns_no_error (exampleEnv
    [entryXY, { entryXY with PackageManager := "unknown-xyz" },
      { entryXY with Action := "upgrade" }] failOnX)
    [] "packages/base.yaml" "packages" [] exampleOSInfo exampleInitConfig _ _ rfl rfl rfl rfl
  exact ⟨h.1, h.2, by decide⟩

/-! ## `HandlePackage`: manager resolution, action, elevation -/

/-- C3: `HandlePackage` returns an unsupported-package-manager error exactly when the unit's
`packageManager` is non-empty and not one of the fifteen supported identifiers; it then names
that identifier and hands no command to the executor.  In `ProcessPackagesFromData` an entry
with such a manager adds one line per unit of its own to the failure report and nothing else:
the entries before and after it are handled as they are without it. -/
theorem C3_unsupported_manager_is_scoped_to_unit (unit : Package) (osInfo : OSInfo)
    (initConfig : InitConfig) (run : Executor) (calls : List Command) :
    ((∃ pm, (HandlePackage unit osInfo initConfig run calls).1
          = some (PkgError.unsupportedManager pm))
        ↔ (unit.PackageManager ≠ "" ∧ unit.PackageManager ∉ supportedManagers))
      ∧ ((unit.PackageManager ≠ "" ∧ unit.PackageManager ∉ supportedManagers) →
          HandlePackage unit osInfo initConfig run calls
            = (some (PkgError.unsupportedManager unit.PackageManager), calls))
      ∧ (∀ (env : Collaborators) (data dataWithout dataBefore : List UInt8)
          (blueprintDir : String) (before after : List Package) (entry : Package),
          (entry.PackageManager ≠ "" ∧ entry.PackageManager ∉ supportedManagers) →
          env.UnmarshalBlueprint data initConfig.Init.Format
            = .ok { Packages := before ++ entry :: after } →
          env.UnmarshalBlueprint dataWithout initConfig.Init.Format
            = .ok { Packages := before ++ after } →
          env.UnmarshalBlueprint dataBefore initConfig.Init.Format
            = .ok { Packages := before } →
          env.SetPaths = none →
          (ProcessPackagesFromData env data blueprintDir osInfo initConfig).calls
              = (ProcessPackagesFromData env dataWithout blueprintDir osInfo initConfig).calls
            ∧ (ProcessPackagesFromData env data blueprintDir osInfo initConfig).failedPackages
              = (ProcessPackagesFromData env dataBefore blueprintDir osInfo
                    initConfig).failedPackages
                ++ (entryUnits entry).map (fun u => "Package " ++ u.Name ++ ": "
                    ++ (PkgError.unsupportedManager entry.PackageManager).Error)
                ++ (ProcessPackagesFromData env dataWithout blueprintDir osInfo
                    initConfig).failedPackages.drop
                  (ProcessPackagesFromData env dataBefore blueprintDir osInfo
                    initConfig).failedPackages.length) := by
  refine ⟨⟨?_, ?_⟩, ?_, ?_⟩
  · rintro ⟨pm, hpm⟩
    rw [← specResolveManager_eq_none_iff unit.PackageManager osInfo]
    cases hm : specResolveManager unit.PackageManager osInfo with
    | none => rfl
    | some m =>
      exfalso
      cases hc : specCommand osInfo unit with
      | some cmd =>
        rw [HandlePackage_of_command _ _ _ _ _ _ hc] at hpm
        cases hr : run calls cmd initConfig.Variables.Flags.Debug <;> simp [hr] at hpm
      | none =>
        have hi : unit.Action ≠ "install" := by
          intro hi; simp [specCommand, hm, hi] at hc
        have hr : unit.Action ≠ "remove" := by
          intro hr; simp [specCommand, hm, hr] at hc
        rw [HandlePackage_of_no_action _ _ _ _ _ m hm hi hr] at hpm
        simp at hpm
  · intro h
    rw [← specResolveManager_eq_none_iff unit.PackageManager osInfo] at h
    exact ⟨unit.PackageManager, by rw [HandlePackage_of_no_manager _ _ _ _ _ h]⟩
  · intro h
    rw [← specResolveManager_eq_none_iff unit.PackageManager osInfo] at h
    exact HandlePackage_of_no_manager _ _ _ _ _ h
  · intro env data dataWithout dataBefore blueprintDir before after entry hbad hd1 hd2 hd3 hset
    rw [← specResolveManager_eq_none_iff entry.PackageManager osInfo] at hbad
    have hnone : ∀ u ∈ entryUnits entry, specResolveManager u.PackageManager osInfo = none := by
      intro u hu
      rw [entryUnits_manager entry u hu]
      exact hbad
    have hlines : (entryUnits entry).map (fun u => "Package " ++ u.Name ++ ": "
          ++ (PkgError.unsupportedManager u.PackageManager).Error)
        = (entryUnits entry).map (fun u => "Package " ++ u.Name ++ ": "
          ++ (PkgError.unsupportedManager entry.PackageManager).Error) := by
      apply List.map_congr_left
      intro u hu
      rw [entryUnits_manager entry u hu]
    have hU1 : specUnits (before ++ entry :: after)
        = specUnits before ++ (entryUnits entry ++ specUnits after) := by
      simp [specUnits, List.flatMap_append, List.flatMap_cons]
    have hU2 : specUnits (before ++ after) = specUnits before ++ specUnits after := by
      simp [specUnits, List.flatMap_append]
    simp only [ProcessPackagesFromData, hd1, hd2, hd3, hset]
    rw [dataLoop_eq_foldl, dataLoop_eq_foldl, dataLoop_eq_foldl, hU1, hU2,
      List.foldl_append, List.foldl_append, List.foldl_append,
      foldl_stepUnit_no_manager _ _ _ (entryUnits entry) _ hnone, hlines]
    constructor
    · simp only [foldl_stepUnit_calls]
    · rw [foldl_stepUnit_failed _ _ _ (specUnits after)
          (List.foldl (stepUnit osInfo initConfig env.RunCommand)
            { calls := [], failedPackages := [] } (specUnits before)),
        foldl_stepUnit_failed _ _ _ (specUnits after)
          { calls := _, failedPackages := _ }]
      simp [List.append_assoc]

/-- Worked example for C3: the unit `z` with manager `unknown-xyz` gets the unsupported-manager
error and no command; in the blueprint `[x and y, z, w]` the report has one line for `z`, after
the line of the failed `x`, and `w` is still installed. -/
theorem C3_unsupported_manager_is_scoped_to_unit_witness :
    HandlePackage entryUnknown exampleOSInfo exampleInitConfig failOnX []
        = (some (PkgError.unsupportedManager "unknown-xyz"), [])
      ∧ (ProcessPackagesFromData
          (variantEnv [[entryXY, entryUnknown, entryW], [entryXY, entryW], [entryXY]] failOnX)
          [0] "packages" exampleOSInfo exampleInitConfig).calls
        = [{ Exec := "apt install -y", Args := ["x"], Elevated := true },
           { Exec := "apt install -y", Args := ["y"], Elevated := true },
           { Exec := "apt install -y", Args := ["w"], Elevated := true }]
      ∧ (ProcessPackagesFromData
          (variantEnv [[entryXY, entryUnknown, entryW], [entryXY, entryW], [entryXY]] failOnX)
          [0] "packages" exampleOSInfo exampleInitConfig).failedPackages
        = ["Package x: error processing package x: exit status 100",
           "Package z: unsupported package manager: unknown-xyz"] := by
  have h := C3_unsupported_manager_is_scoped_to_unit entryUnknown exampleOSInfo
    exampleInitConfig failOnX []
  have hbad : entryUnknown.PackageManager ≠ "" ∧ entryUnknown.PackageManager ∉ supportedManagers :=
    ⟨by decide, by decide⟩
  have hc := h.2.2
    (variantEnv [[entryXY, entryUnknown, entryW], [entryXY, entryW], [entryXY]] failOnX)
    [0] [1] [2] "packages" [entryXY] [entryW] entryUnknown hbad rfl rfl rfl rfl
  refine ⟨h.2.1 hbad, hc.1.trans (by decide), hc.2.trans (by decide)⟩

/-- C4: for a unit whose `packageManager` is one of yay, paru, trizen, yaourt, pamac, aura, the
install template, remove template and elevation flag resolved by `HandlePackage` are those of
the default entry of the OS info, and `HandlePackage` does exactly what it does for the same
unit with an empty `packageManager`. -/
theorem C4_aur_helpers_use_default_manager (pkg : Package) (osInfo : OSInfo)
    (initConfig : InitConfig) (run : Executor) (calls : List Command)
    (h : pkg.PackageManager ∈ aurHelpers) :
    resolveManager pkg.PackageManager osInfo
        = .ok (osInfo.PackageManager.Default.Install, osInfo.PackageManager.Default.Remove,
            osInfo.PackageManager.Default.Elevated)
      ∧ HandlePackage pkg osInfo initConfig run calls
        = HandlePackage { pkg with PackageManager := "" } osInfo initConfig run calls := by
  have h1 : resolveManager pkg.PackageManager osInfo
      = .ok (osInfo.PackageManager.Default.Install, osInfo.PackageManager.Default.Remove,
          osInfo.PackageManager.Default.Elevated) := by
    simp only [aurHelpers, List.mem_cons, List.mem_singleton, List.not_mem_nil, or_false] at h
    rcases h with h | h | h | h | h | h <;> rw [h] <;> simp [resolveManager]
  have h2 : resolveManager "" osInfo
      = .ok (osInfo.PackageManager.Default.Install, osInfo.PackageManager.Default.Remove,
          osInfo.PackageManager.Default.Elevated) := by
    simp [resolveManager]
  refine ⟨h1, ?_⟩
  unfold HandlePackage
  simp only [h1, h2]

/-- Worked example for C4: a `yay` unit on a machine whose default manager is `apt` is
installed with the `apt` template, like the same unit without a manager. -/
theorem C4_aur_helpers_use_default_manager_witness :
    "yay" ∈ aurHelpers
      ∧ resolveManager "yay" exampleOSInfo = .ok ("apt install -y", "apt remove -y", true)
      ∧ HandlePackage { entryW with PackageManager := "yay" } exampleOSInfo exampleInitConfig
          failOnX []
        = HandlePackage { entryW with PackageManager := "" } exampleOSInfo exampleInitConfig
          failOnX []
      ∧ HandlePackage { entryW with PackageManager := "yay" } exampleOSInfo exampleInitConfig
          failOnX []
        = (none, [{ Exec := "apt install -y", Args := ["w"], Elevated := true }]) := by
  have h := C4_aur_helpers_use_default_manager { entryW with PackageManager := "yay" }
    exampleOSInfo exampleInitConfig failOnX [] (by decide)
  exact ⟨by decide, h.1.trans rfl, h.2, by decide⟩

/-- C5: manager resolution in `HandlePackage` equals the reference table: the empty identifier
resolves to the default entry of the OS info, each of brew, apt, dnf, eopkg, pacman, zypper,
emerge, nix, cargo resolves to the templates and flag of its own entry, the resolution agrees
with the specified `resolveManager` on every identifier, and the command `HandlePackage` hands
to the executor for a unit with a table manager is built from that manager's own entry. -/
theorem C5_manager_resolution_equals_table (osInfo : OSInfo) :
    resolveManager "" osInfo
        = .ok (osInfo.PackageManager.Default.Install, osInfo.PackageManager.Default.Remove,
            osInfo.PackageManager.Default.Elevated)
      ∧ (∀ (identifier : String) (entry : PackageManagerInfo),
          (identifier, entry) ∈ managerTable osInfo.PackageManager →
          resolveManager identifier osInfo = .ok (entry.Install, entry.Remove, entry.Elevated))
      ∧ (∀ identifier : String,
          resolveManager identifier osInfo =
            match specResolveManager identifier osInfo with
            | some m => .ok (m.Install, m.Remove, m.Elevated)
            | none => .error (.unsupportedManager identifier))
      ∧ (∀ (pkg : Package) (entry : PackageManagerInfo) (initConfig : InitConfig)
          (run : Executor) (calls : List Command),
          (pkg.PackageManager, entry) ∈ managerTable osInfo.PackageManager →
          (HandlePackage pkg osInfo initConfig run calls).2 =
            if pkg.Action = "install" then
              calls ++ [{ Exec := entry.Install, Args := [pkg.Name],
                          Elevated := entry.Elevated || pkg.Elevated }]
            else if pkg.Action = "remove" then
              calls ++ [{ Exec := entry.Remove, Args := [pkg.Name],
                          Elevated := entry.Elevated || pkg.Elevated }]
            else calls) := by
  have htable : ∀ (identifier : String) (entry : PackageManagerInfo),
      (identifier, entry) ∈ managerTable osInfo.PackageManager →
      specResolveManager identifier osInfo = some entry := by
    intro identifier entry hmem
    simp only [managerTable, List.mem_cons, List.mem_singleton, List.not_mem_nil, or_false,
      Prod.mk.injEq] at hmem
    rcases hmem with h | h | h | h | h | h | h | h | h <;> obtain ⟨rfl, rfl⟩ := h <;>
      simp [specResolveManager, managerTable, List.lookup]
  refine ⟨by simp [resolveManager], ?_, fun identifier => resolveManager_eq_spec identifier osInfo, ?_⟩
  · intro identifier entry hmem
    rw [resolveManager_eq_spec, htable identifier entry hmem]
  · intro pkg entry initConfig run calls hmem
    rw [HandlePackage_calls]
    unfold specCommand
    rw [htable _ entry hmem]
    by_cases hi : pkg.Action = "install"
    · simp [hi]
    · by_cases hr : pkg.Action = "remove"
      · simp [hr]
      · simp [hi, hr]

/-- Worked example for C5: `dnf` resolves to the `dnf` entry, not to the default `apt` entry, and
a `dnf` removal is run with the `dnf` remove template. -/
theorem C5_manager_resolution_equals_table_witness :
    ("dnf", exampleOSInfo.PackageManager.Dnf) ∈ managerTable exampleOSInfo.PackageManager
      ∧ resolveManager "dnf" exampleOSInfo = .ok ("dnf install -y", "dnf remove -y", true)
      ∧ (HandlePackage { entryW with PackageManager := "dnf", Action := "remove" } exampleOSInfo
          exampleInitConfig failOnX []).2
        = [{ Exec := "dnf remove -y", Args := ["w"], Elevated := true }] := by
  have h := C5_manager_resolution_equals_table exampleOSInfo
  have hmem : ("dnf", exampleOSInfo.PackageManager.Dnf)
      ∈ managerTable exampleOSInfo.PackageManager := by decide
  refine ⟨hmem, (h.2.1 "dnf" _ hmem).trans rfl, ?_⟩
  exact (h.2.2.2 { entryW with PackageManager := "dnf", Action := "remove" }
    exampleOSInfo.PackageManager.Dnf exampleInitConfig failOnX [] hmem).trans (by decide)

/-- C6: for a unit whose manager resolves, `HandlePackage` selects the template by `action`:
`install` runs the resolved install template, `remove` the resolved remove template, and any
other action (the empty string and other spellings included) returns the unsupported-action
error without handing a command to the executor. -/
theorem C6_template_selected_by_action (pkg : Package) (osInfo : OSInfo)
    (initConfig : InitConfig) (run : Executor) (calls : List Command)
    (install remove : String) (elevated : Bool)
    (h : resolveManager pkg.PackageManager osInfo = .ok (install, remove, elevated)) :
    (pkg.Action = "install" →
        ∃ cmd, (HandlePackage pkg osInfo initConfig run calls).2 = calls ++ [cmd]
          ∧ cmd.Exec = install)
      ∧ (pkg.Action = "remove" →
        ∃ cmd, (HandlePackage pkg osInfo initConfig run calls).2 = calls ++ [cmd]
          ∧ cmd.Exec = remove)
      ∧ (pkg.Action ≠ "install" → pkg.Action ≠ "remove" →
        HandlePackage pkg osInfo initConfig run calls
          = (some (PkgError.unsupportedAction pkg.Action), calls)) := by
  obtain ⟨m, hm, rfl, rfl, rfl⟩ := specResolveManager_of_resolved _ _ _ _ _ h
  refine ⟨?_, ?_, ?_⟩
  · intro hi
    have hc : specCommand osInfo pkg
        = some { Exec := m.Install, Args := [pkg.Name],
                 Elevated := m.Elevated || pkg.Elevated } := by
      simp [specCommand, hm, hi]
    exact ⟨_, by rw [HandlePackage_of_command _ _ _ _ _ _ hc], rfl⟩
  · intro hr
    have hc : specCommand osInfo pkg
        = some { Exec := m.Remove, Args := [pkg.Name],
                 Elevated := m.Elevated || pkg.Elevated } := by
      simp [specCommand, hm, hr]
    exact ⟨_, by rw [HandlePackage_of_command _ _ _ _ _ _ hc], rfl⟩
  · intro hi hr
    exact HandlePackage_of_no_action _ _ _ _ _ m hm hi hr

/-- Worked example for C6: with the `apt` manager, `install` and `remove` run the two `apt`
templates, and the actions `Install` and the empty string are refused. -/
theorem C6_template_selected_by_action_witness :
    resolveManager "apt" exampleOSInfo = .ok ("apt install -y", "apt remove -y", true)
      ∧ (∃ cmd, (HandlePackage entryW exampleOSInfo exampleInitConfig failOnX []).2 = [] ++ [cmd]
          ∧ cmd.Exec = "apt install -y")
      ∧ (∃ cmd, (HandlePackage { entryW with Action := "remove" } exampleOSInfo
            exampleInitConfig failOnX []).2 = [] ++ [cmd]
          ∧ cmd.Exec = "apt remove -y")
      ∧ HandlePackage { entryW with Action := "Install" } exampleOSInfo exampleInitConfig
          failOnX [] = (some (PkgError.unsupportedAction "Install"), [])
      ∧ HandlePackage { entryW with Action := "" } exampleOSInfo exampleInitConfig
          failOnX [] = (some (PkgError.unsupportedAction ""), []) := by
  have hres : resolveManager "apt" exampleOSInfo
      = .ok ("apt install -y", "apt remove -y", true) := rfl
  exact ⟨hres,
    (C6_template_selected_by_action entryW exampleOSInfo exampleInitConfig failOnX []
      _ _ _ hres).1 rfl,
    (C6_template_selected_by_action { entryW with Action := "remove" } exampleOSInfo
      exampleInitConfig failOnX [] _ _ _ hres).2.1 rfl,
    (C6_template_selected_by_action { entryW with Action := "Install" } exampleOSInfo
      exampleInitConfig failOnX [] _ _ _ hres).2.2 (by decide) (by decide),
    (C6_template_selected_by_action { entryW with Action := "" } exampleOSInfo
      exampleInitConfig failOnX [] _ _ _ hres).2.2 (by decide) (by decide)⟩

/-- C7: whenever `HandlePackage` hands a command to the executor, its elevated flag is the
resolved manager's flag OR the unit's flag: a unit-level true always gives an elevated command
and a unit-level false never lowers an elevated manager. -/
theorem C7_elevated_is_manager_or_unit (pkg : Package) (osInfo : OSInfo)
    (initConfig : InitConfig) (run : Executor) (calls : List Command)
    (install remove : String) (elevated : Bool) (cmd : Command)
    (h : resolveManager pkg.PackageManager osInfo = .ok (install, remove, elevated))
    (hexec : (HandlePackage pkg osInfo initConfig run calls).2 = calls ++ [cmd]) :
    cmd.Elevated = (elevated || pkg.Elevated)
      ∧ (pkg.Elevated = true → cmd.Elevated = true)
      ∧ (elevated = true → cmd.Elevated = true) := by
  obtain ⟨m, hm, rfl, rfl, rfl⟩ := specResolveManager_of_resolved _ _ _ _ _ h
  have hcmd : cmd.Elevated = (m.Elevated || pkg.Elevated) := by
    rw [HandlePackage_calls] at hexec
    have hc : (specCommand osInfo pkg).toList = [cmd] := List.append_cancel_left hexec
    unfold specCommand at hc
    rw [hm] at hc
    by_cases hi : pkg.Action = "install"
    · simp only [hi, if_true, Option.toList, List.cons.injEq, and_true] at hc
      rw [← hc]
    · by_cases hr : pkg.Action = "remove"
      · simp only [hr, show ¬ ("remove" = "install") by decide, if_true, if_false,
          Option.toList, List.cons.injEq, and_true] at hc
        rw [← hc]
      · simp [hi, hr] at hc
  refine ⟨hcmd, ?_, ?_⟩
  · intro hp; rw [hcmd, hp]; simp
  · intro he; rw [hcmd, he]; simp

/-- Worked example for C7: a `cargo` unit (manager not elevated) marked elevated runs elevated,
and an `apt` unit (manager elevated) not marked elevated runs elevated too. -/
theorem C7_elevated_is_manager_or_unit_witness :
    resolveManager "cargo" exampleOSInfo = .ok ("cargo install -y", "cargo remove -y", false)
      ∧ (HandlePackage { entryW with PackageManager := "cargo", Elevated := true } exampleOSInfo
          exampleInitConfig failOnX []).2
        = [] ++ [{ Exec := "cargo install -y", Args := ["w"], Elevated := true }]
      ∧ ({ Exec := "cargo install -y", Args := ["w"], Elevated := true } : Command).Elevated
        = (false || true)
      ∧ (HandlePackage { entryW with PackageManager := "cargo" } exampleOSInfo
          exampleInitConfig failOnX []).2
        = [] ++ [{ Exec := "cargo install -y", Args := ["w"], Elevated := false }]
      ∧ (HandlePackage entryW exampleOSInfo exampleInitConfig failOnX []).2
        = [] ++ [{ Exec := "apt install -y", Args := ["w"], Elevated := true }] := by
  have hres : resolveManager "cargo" exampleOSInfo
      = .ok ("cargo install -y", "cargo remove -y", false) := rfl
  have hexec : (HandlePackage { entryW with PackageManager := "cargo", Elevated := true }
      exampleOSInfo exampleInitConfig failOnX []).2
      = [] ++ [{ Exec := "cargo install -y", Args := ["w"], Elevated := true }] := by decide
  exact ⟨hres, hexec,
    (C7_elevated_is_manager_or_unit { entryW with PackageManager := "cargo", Elevated := true }
      exampleOSInfo exampleInitConfig failOnX [] _ _ _ _ hres hexec).1,
    by decide, by decide⟩

/-! ## The file order and the run order -/

theorem foldl_files_eq (processor : String) (filesArr : List Value) (acc : List String) :
    filesArr.foldl (fun fileOrder file =>
        match file with
        | .str fileStr => fileOrder ++ [Join [processor, fileStr]]
        | _ => fileOrder) acc
      = acc ++ expandGroup processor (.slice filesArr) := by
  induction filesArr generalizing acc with
  | nil => simp [expandGroup]
  | cons file rest ih =>
    rw [List.foldl_cons, ih]
    cases file <;> simp [expandGroup, List.filterMap_cons]

theorem foldl_groups_eq (subOrder : List (String × Value)) (acc : List String) :
    subOrder.foldl (fun fileOrder entry =>
        match entry.2 with
        | .slice filesArr =>
          filesArr.foldl (fun fileOrder file =>
            match file with
            | .str fileStr => fileOrder ++ [Join [entry.1, fileStr]]
            | _ => fileOrder) fileOrder
        | _ => fileOrder) acc
      = acc ++ subOrder.flatMap fun entry => expandGroup entry.1 entry.2 := by
  induction subOrder generalizing acc with
  | nil => simp
  | cons entry rest ih =>
    rw [List.foldl_cons, ih, List.flatMap_cons]
    obtain ⟨processor, files⟩ := entry
    cases files with
    | slice filesArr => simp only [foldl_files_eq, List.append_assoc]
    | str s => simp [expandGroup]
    | strMap m => simp [expandGroup]
    | other t => simp [expandGroup]

theorem foldl_items_eq (order : List Value) (acc : List String) :
    order.foldl (fun fileOrder item =>
        match item with
        | .str str => fileOrder ++ [str]
        | .strMap subOrder =>
          subOrder.foldl (fun fileOrder entry =>
            match entry.2 with
            | .slice filesArr =>
              filesArr.foldl (fun fileOrder file =>
                match file with
                | .str fileStr => fileOrder ++ [Join [entry.1, fileStr]]
                | _ => fileOrder) fileOrder
            | _ => fileOrder) fileOrder
        | _ => fileOrder) acc
      = acc ++ order.flatMap expandItem := by
  induction order generalizing acc with
  | nil => simp
  | cons item rest ih =>
    rw [List.foldl_cons, ih, List.flatMap_cons]
    cases item with
    | str s => simp [expandItem]
    | strMap subOrder => simp only [foldl_groups_eq, expandItem, List.append_assoc]
    | slice l => simp [expandItem]
    | other t => simp [expandItem]

theorem GetBlueprintFileOrder_eq (blueprintDir : String) (order : List Value) :
    GetBlueprintFileOrder blueprintDir order = (order.flatMap expandItem, none) := by
  unfold GetBlueprintFileOrder
  simp only [foldl_items_eq, List.nil_append]

theorem expandItem_toValue (e : OrderElem) : expandItem e.toValue = e.expand := by
  cases e with
  | bare f => rfl
  | group g fs =>
    simp only [OrderElem.toValue, expandItem, OrderElem.expand, List.flatMap_cons,
      List.flatMap_nil, List.append_nil, expandGroup]
    induction fs with
    | nil => rfl
    | cons f rest ih => simp [List.filterMap_cons, ih]

/-- C8: for every order spec made of bare file names and single-key groups of file names,
`GetBlueprintFileOrder` returns, with no error, the concatenation in input order of the
expansions of its elements (a bare name is itself, a group gives `filepath.Join` of the group
name and each file name in declared order); the result does not depend on `blueprintDir`; and
the spec `["a.yaml", packages: ["b.yaml", "c.yaml"]]` gives
`["a.yaml", "packages/b.yaml", "packages/c.yaml"]`. -/
theorem C8_file_order_preserves_input_order (blueprintDir : String) (order : List OrderElem) :
    GetBlueprintFileOrder blueprintDir (order.map OrderElem.toValue)
        = (order.flatMap OrderElem.expand, none)
      ∧ (∀ otherDir : String,
          GetBlueprintFileOrder otherDir (order.map OrderElem.toValue)
            = GetBlueprintFileOrder blueprintDir (order.map OrderElem.toValue))
      ∧ (∀ first second : List OrderElem,
          (GetBlueprintFileOrder blueprintDir ((first ++ second).map OrderElem.toValue)).1
            = (GetBlueprintFileOrder blueprintDir (first.map OrderElem.toValue)).1
              ++ (GetBlueprintFileOrder blueprintDir (second.map OrderElem.toValue)).1)
      ∧ GetBlueprintFileOrder blueprintDir (exampleOrder.map OrderElem.toValue)
        = (["a.yaml", "packages/b.yaml", "packages/c.yaml"], none) := by
  have hmain : ∀ (dir : String) (l : List OrderElem),
      GetBlueprintFileOrder dir (l.map OrderElem.toValue)
        = (l.flatMap OrderElem.expand, none) := by
    intro dir l
    rw [GetBlueprintFileOrder_eq]
    congr 1
    induction l with
    | nil => rfl
    | cons e rest ih =>
      simp only [List.map_cons, List.flatMap_cons, expandItem_toValue, ih]
  refine ⟨hmain _ _, ?_, ?_, ?_⟩
  · intro otherDir
    rw [hmain, hmain]
  · intro first second
    simp only [hmain, List.flatMap_append]
  · rw [hmain]
    decide

theorem expandGroup_filter (processor : String) (filesArr : List Value) :
    expandGroup processor (.slice (filesArr.filter isFileName))
      = expandGroup processor (.slice filesArr) := by
  induction filesArr with
  | nil => rfl
  | cons file rest ih =>
    simp only [expandGroup] at ih ⊢
    cases file <;> simp [List.filter_cons, isFileName, List.filterMap_cons, ih]

theorem flatMap_dropMalformedGroups (subOrder : List (String × Value)) :
    ((dropMalformedGroups subOrder).flatMap fun entry => expandGroup entry.1 entry.2)
      = subOrder.flatMap fun entry => expandGroup entry.1 entry.2 := by
  induction subOrder with
  | nil => rfl
  | cons entry rest ih =>
    obtain ⟨processor, files⟩ := entry
    unfold dropMalformedGroups at ih ⊢
    cases files with
    | slice filesArr =>
      simp only [List.filterMap_cons, List.flatMap_cons, ih, expandGroup_filter]
    | str s =>
      simp only [List.filterMap_cons, List.flatMap_cons, ih]
      rfl
    | strMap m =>
      simp only [List.filterMap_cons, List.flatMap_cons, ih]
      rfl
    | other t =>
      simp only [List.filterMap_cons, List.flatMap_cons, ih]
      rfl

theorem flatMap_dropMalformed (order : List Value) :
    (dropMalformed order).flatMap expandItem = order.flatMap expandItem := by
  induction order with
  | nil => rfl
  | cons item rest ih =>
    unfold dropMalformed at ih ⊢
    cases item with
    | str s => simp [List.filterMap_cons, List.flatMap_cons, ih, expandItem]
    | strMap subOrder =>
      simp only [List.filterMap_cons, List.flatMap_cons, ih, expandItem,
        flatMap_dropMalformedGroups]
    | slice l => simp [List.filterMap_cons, List.flatMap_cons, ih, expandItem]
    | other t => simp [List.filterMap_cons, List.flatMap_cons, ih, expandItem]

theorem expandItem_of_malformed (item : Value) (h : isMalformedItem item = true) :
    expandItem item = [] := by
  cases item <;> simp_all [isMalformedItem, expandItem]

theorem filter_isFileName_of_all (filesArr : List Value)
    (h : filesArr.all isFileName = true) : filesArr.filter isFileName = filesArr := by
  rw [List.filter_eq_self]
  intro a ha
  exact List.all_eq_true.mp h a ha

theorem dropMalformedGroups_of_wellFormed (subOrder : List (String × Value))
    (h : (subOrder.all fun entry =>
      match entry.2 with
      | .slice filesArr => filesArr.all isFileName
      | _ => false) = true) :
    dropMalformedGroups subOrder = subOrder := by
  induction subOrder with
  | nil => rfl
  | cons entry rest ih =>
    obtain ⟨processor, files⟩ := entry
    rw [List.all_cons, Bool.and_eq_true] at h
    have ih2 := ih h.2
    unfold dropMalformedGroups at ih2 ⊢
    cases files with
    | slice filesArr =>
      have h1 : filesArr.all isFileName = true := h.1
      simp only [List.filterMap_cons, ih2, filter_isFileName_of_all filesArr h1]
    | str s => simp at h
    | strMap m => simp at h
    | other t => simp at h

theorem dropMalformed_of_wellFormed (order : List Value)
    (h : order.all isWellFormedItem = true) : dropMalformed order = order := by
  induction order with
  | nil => rfl
  | cons item rest ih =>
    rw [List.all_cons, Bool.and_eq_true] at h
    have ih2 := ih h.2
    unfold dropMalformed at ih2 ⊢
    cases item with
    | str s => simp only [List.filterMap_cons, ih2]
    | strMap subOrder =>
      have h1 := h.1
      unfold isWellFormedItem at h1
      simp only [List.filterMap_cons, ih2, dropMalformedGroups_of_wellFormed subOrder h1]
    | slice l => simp [isWellFormedItem] at h
    | other t => simp [isWellFormedItem] at h

theorem dropMalformedGroups_wellFormed (subOrder : List (String × Value)) :
    ((dropMalformedGroups subOrder).all fun entry =>
      match entry.2 with
      | .slice filesArr => filesArr.all isFileName
      | _ => false) = true := by
  induction subOrder with
  | nil => rfl
  | cons entry rest ih =>
    obtain ⟨processor, files⟩ := entry
    unfold dropMalformedGroups at ih ⊢
    cases files with
    | slice filesArr =>
      simp only [List.filterMap_cons, List.all_cons, ih, Bool.and_true]
      simp [List.all_eq_true]
    | str s => simpa [List.filterMap_cons] using ih
    | strMap m => simpa [List.filterMap_cons] using ih
    | other t => simpa [List.filterMap_cons] using ih

theorem dropMalformed_wellFormed (order : List Value) :
    (dropMalformed order).all isWellFormedItem = true := by
  induction order with
  | nil => rfl
  | cons item rest ih =>
    unfold dropMalformed at ih ⊢
    cases item with
    | str s => simpa [List.filterMap_cons, isWellFormedItem] using ih
    | strMap subOrder =>
      simp only [List.filterMap_cons, List.all_cons, ih, Bool.and_true]
      unfold isWellFormedItem
      exact dropMalformedGroups_wellFormed subOrder
    | slice l => simpa [List.filterMap_cons] using ih
    | other t => simpa [List.filterMap_cons] using ih

/-- C9: `GetBlueprintFileOrder` never returns an error; its result is the result for the same
order spec without its malformed parts (elements that are neither a string nor a string-keyed
map, keys whose value is not a list, non-string entries of a list), where removing the
malformed parts leaves a well-formed spec and changes nothing in a well-formed one; and around
a malformed element the parts before and after are still emitted. -/
theorem C9_malformed_parts_are_skipped (blueprintDir : String) (order : List Value) :
    (GetBlueprintFileOrder blueprintDir order).2 = none
      ∧ GetBlueprintFileOrder blueprintDir order
        = GetBlueprintFileOrder blueprintDir (dropMalformed order)
      ∧ (dropMalformed order).all isWellFormedItem = true
      ∧ (order.all isWellFormedItem = true → dropMalformed order = order)
      ∧ (∀ (before after : List Value) (bad : Value), isMalformedItem bad = true →
          (GetBlueprintFileOrder blueprintDir (before ++ bad :: after)).1
            = (GetBlueprintFileOrder blueprintDir before).1
              ++ (GetBlueprintFileOrder blueprintDir after).1) := by
  refine ⟨?_, ?_, dropMalformed_wellFormed order, dropMalformed_of_wellFormed order, ?_⟩
  · rw [GetBlueprintFileOrder_eq]
  · rw [GetBlueprintFileOrder_eq, GetBlueprintFileOrder_eq, flatMap_dropMalformed]
  · intro before after bad hbad
    simp only [GetBlueprintFileOrder_eq, List.flatMap_append, List.flatMap_cons,
      expandItem_of_malformed bad hbad, List.nil_append]

/-- Worked example for C9: an order spec with a number and a foreign map at top level, a
group key whose value is a string and a number among the file names gives the paths of its
well-formed parts, in order and without error. -/
theorem C9_malformed_parts_are_skipped_witness :
    GetBlueprintFileOrder "packages" malformedOrder
        = (["a.yaml", "packages/b.yaml", "packages/c.yaml", "d.yaml"], none)
      ∧ isMalformedItem (.slice [.str "loose.yaml"]) = true
      ∧ (GetBlueprintFileOrder "packages"
          ([.other "int", .str "a.yaml"] ++ .slice [.str "loose.yaml"] :: [.str "d.yaml"])).1
        = ["a.yaml", "d.yaml"]
      ∧ (GetBlueprintFileOrder "packages" (dropMalformed malformedOrder)).1
        = ["a.yaml", "packages/b.yaml", "packages/c.yaml", "d.yaml"] := by
  have h := C9_malformed_parts_are_skipped "packages" malformedOrder
  have h2 := C9_malformed_parts_are_skipped "packages"
    ([.other "int", .str "a.yaml"] ++ .slice [.str "loose.yaml"] :: [.str "d.yaml"])
  refine ⟨by decide, rfl, ?_, ?_⟩
  · exact (h2.2.2.2.2 [.other "int", .str "a.yaml"] [.str "d.yaml"]
      (.slice [.str "loose.yaml"]) rfl).trans (by decide)
  · rw [← h.2.1]
    decide

/-- C10: for every init configuration that declares no blueprint order (`Blueprint.Order` is
nil), `GetBlueprintRunOrder` returns exactly `["repositories", "packages", "files",
"services"]` and no error. -/
theorem C10_default_run_order (initConfig : ProcessorsTypes.InitConfig)
    (h : initConfig.Blueprint.Order = none) :
    GetBlueprintRunOrder initConfig
      = (["repositories", "packages", "files", "services"], none) := by
  unfold GetBlueprintRunOrder
  rw [h]

/-- Worked example for C10: the init configuration without a blueprint order. -/
theorem C10_default_run_order_witness :
    ({ Blueprint := { Order := none } } : ProcessorsTypes.InitConfig).Blueprint.Order = none
      ∧ GetBlueprintRunOrder { Blueprint := { Order := none } }
        = (["repositories", "packages", "files", "services"], none) :=
  ⟨rfl, C10_default_run_order { Blueprint := { Order := none } } rfl⟩

/-- C11: for every init configuration that declares a blueprint order, `GetBlueprintRunOrder`
returns exactly the declared sequence and no error: same elements in the same order, so also
the same length, duplicates and unknown names kept, and an empty declared order returned as
the empty sequence. -/
theorem C11_declared_run_order_is_returned (initConfig : ProcessorsTypes.InitConfig)
    (order : List String) (h : initConfig.Blueprint.Order = some order) :
    GetBlueprintRunOrder initConfig = (order, none)
      ∧ (GetBlueprintRunOrder initConfig).1.length = order.length
      ∧ (∀ i : Nat, (GetBlueprintRunOrder initConfig).1.get? i = order.get? i) := by
  have hmain : GetBlueprintRunOrder initConfig = (order, none) := by
    unfold GetBlueprintRunOrder
    rw [h]
  exact ⟨hmain, by rw [hmain], fun i => by rw [hmain]⟩

/-- Worked example for C11: a declared order with a duplicate and an unknown category is
returned as it is, and a declared empty order is returned empty. -/
theorem C11_declared_run_order_is_returned_witness :
    GetBlueprintRunOrder { Blueprint := { Order := some ["packages", "bogus", "packages"] } }
        = (["packages", "bogus", "packages"], none)
      ∧ GetBlueprintRunOrder { Blueprint := { Order := some [] } } = ([], none) :=
  ⟨(C11_declared_run_order_is_returned
      { Blueprint := { Order := some ["packages", "bogus", "packages"] } } _ rfl).1,
    (C11_declared_run_order_is_returned { Blueprint := { Order := some [] } } _ rfl).1⟩

/-! ## The failure report -/

theorem stepUnit_eq (osInfo : OSInfo) (initConfig : InitConfig) (run : Executor)
    (st : RunState) (unit : Package) :
    stepUnit osInfo initConfig run st unit =
      { calls := (HandlePackage unit osInfo initConfig run st.calls).2,
        failedPackages := st.failedPackages ++
          (reportLine (unit, (HandlePackage unit osInfo initConfig run st.calls).1)).toList } := by
  unfold stepUnit reportLine
  cases hp : HandlePackage unit osInfo initConfig run st.calls with
  | mk e c => cases e <;> simp

theorem foldl_stepUnit_report (osInfo : OSInfo) (initConfig : InitConfig) (run : Executor)
    (units : List Package) (st : RunState) :
    (units.foldl (stepUnit osInfo initConfig run) st).failedPackages =
      st.failedPackages
        ++ (unitOutcomes osInfo initConfig run units st.calls).filterMap reportLine := by
  induction units generalizing st with
  | nil => simp [unitOutcomes]
  | cons u us ih =>
    rw [List.foldl_cons, ih, stepUnit_eq]
    simp only [unitOutcomes, List.filterMap_cons, List.append_assoc]
    cases reportLine (u, (HandlePackage u osInfo initConfig run st.calls).1) <;> simp

theorem unitOutcomes_units (osInfo : OSInfo) (initConfig : InitConfig) (run : Executor)
    (units : List Package) (calls : List Command) :
    (unitOutcomes osInfo initConfig run units calls).map Prod.fst = units := by
  induction units generalizing calls with
  | nil => rfl
  | cons u us ih => simp [unitOutcomes, ih]

theorem filterMap_reportLine_length (outcomes : List (Package × Option PkgError)) :
    (outcomes.filterMap reportLine).length
      = (outcomes.filter fun o => o.2.isSome).length := by
  induction outcomes with
  | nil => rfl
  | cons o rest ih =>
    obtain ⟨u, e⟩ := o
    cases e <;> simp [List.filterMap_cons, List.filter_cons, reportLine, ih]

theorem filterMap_reportLine_eq_nil (outcomes : List (Package × Option PkgError)) :
    outcomes.filterMap reportLine = [] ↔ ∀ o ∈ outcomes, o.2 = none := by
  induction outcomes with
  | nil => simp
  | cons o rest ih =>
    obtain ⟨u, e⟩ := o
    cases e <;> simp [List.filterMap_cons, reportLine, ih]

theorem data_failedPackages (env : Collaborators) (blueprintData : List UInt8)
    (blueprintDir : String) (osInfo : OSInfo) (initConfig : InitConfig)
    (packages : List Package)
    (hdec : env.UnmarshalBlueprint blueprintData initConfig.Init.Format
      = .ok { Packages := packages })
    (hset : env.SetPaths = none) :
    (ProcessPackagesFromData env blueprintData blueprintDir osInfo initConfig).failedPackages
      = (unitOutcomes osInfo initConfig env.RunCommand (specUnits packages) []).filterMap
          reportLine := by
  simp only [ProcessPackagesFromData, hdec, hset]
  rw [dataLoop_eq_foldl, foldl_stepUnit_report]
  rfl

theorem file_failedPackages (env : Collaborators) (blueprintFile blueprintDir : String)
    (fileBytes : List UInt8) (osInfo : OSInfo) (initConfig : InitConfig)
    (packages : List Package)
    (hread : env.ReadFile blueprintFile = .ok fileBytes)
    (hdecFile : env.UnmarshalBlueprint fileBytes (Ext blueprintFile)
      = .ok { Packages := packages })
    (hset : env.SetPaths = none) :
    (ProcessPackagesFromFile env blueprintFile blueprintDir osInfo initConfig).failedPackages
      = (unitOutcomes osInfo initConfig env.RunCommand (specUnits packages) []).filterMap
          reportLine := by
  simp only [ProcessPackagesFromFile, hread, hdecFile, hset]
  rw [fileLoop_eq_foldl, foldl_stepUnit_report]
  rfl

/-- C12: for every list of entries and every executor, the failure report of both processors
has exactly one line for each unit whose handling returned an error and none for a unit that
succeeded, in the order the units were attempted (there is one outcome per unit of the
blueprint, in declaration order); its length is the number of failed units, and it is empty
exactly when every unit succeeded. -/
theorem C12_failure_report_lists_failed_units (env : Collaborators)
    (blueprintData : List UInt8) (blueprintFile blueprintDir : String) (fileBytes : List UInt8)
    (osInfo : OSInfo) (initConfig : InitConfig) (packages : List Package)
    (hdec : env.UnmarshalBlueprint blueprintData initConfig.Init.Format
      = .ok { Packages := packages })
    (hread : env.ReadFile blueprintFile = .ok fileBytes)
    (hdecFile : env.UnmarshalBlueprint fileBytes (Ext blueprintFile)
      = .ok { Packages := packages })
    (hset : env.SetPaths = none) :
    (ProcessPackagesFromData env blueprintData blueprintDir osInfo initConfig).failedPackages
        = (unitOutcomes osInfo initConfig env.RunCommand (specUnits packages) []).filterMap
            reportLine
      ∧ (ProcessPackagesFromFile env blueprintFile blueprintDir osInfo
          initConfig).failedPackages
        = (unitOutcomes osInfo initConfig env.RunCommand (specUnits packages) []).filterMap
            reportLine
      ∧ (unitOutcomes osInfo initConfig env.RunCommand (specUnits packages) []).map Prod.fst
        = specUnits packages
      ∧ (ProcessPackagesFromData env blueprintData blueprintDir osInfo
          initConfig).failedPackages.length
        = ((unitOutcomes osInfo initConfig env.RunCommand (specUnits packages) []).filter
            fun o => o.2.isSome).length
      ∧ ((ProcessPackagesFromData env blueprintData blueprintDir osInfo
            initConfig).failedPackages = []
          ↔ ∀ o ∈ unitOutcomes osInfo initConfig env.RunCommand (specUnits packages) [],
              o.2 = none) := by
  have hd := data_failedPackages env blueprintData blueprintDir osInfo initConfig packages
    hdec hset
  have hf := file_failedPackages env blueprintFile blueprintDir fileBytes osInfo initConfig
    packages hread hdecFile hset
  refine ⟨hd, hf, unitOutcomes_units _ _ _ _ _, ?_, ?_⟩
  · rw [hd, filterMap_reportLine_length]
  · rw [hd, filterMap_reportLine_eq_nil]

/-- Worked example for C12: of the five units `x`, `y`, `z`, `w` and `v` (action `upgrade`), the
three that fail (`x` fails to run, `z` has an unknown manager, `v` an unknown action) each have
one line in the report, in that order. -/
theorem C12_failure_report_lists_failed_units_witness :
    (ProcessPackagesFromData
        (exampleEnv [entryXY, entryUnknown, entryW, { entryW with Name := "v", Action := "upgrade" }]
          failOnX)
        [] "packages" exampleOSInfo exampleInitConfig).failedPackages
        = ["Package x: error processing package x: exit status 100",
           "Package z: unsupported package manager: unknown-xyz",
           "Package v: unsupported action: upgrade"]
      ∧ (ProcessPackagesFromData
        (exampleEnv [entryXY, entryUnknown, entryW, { entryW with Name := "v", Action := "upgrade" }]
          failOnX)
        [] "packages" exampleOSInfo exampleInitConfig).failedPackages.length = 3
      ∧ (ProcessPackagesFromData (exampleEnv [entryW] failOnX) [] "packages" exampleOSInfo
          exampleInitConfig).failedPackages = [] := by
  have h := C12_failure_report_lists_failed_units
    (exampleEnv [entryXY, entryUnknown, entryW, { entryW with Name := "v", Action := "upgrade" }]
      failOnX)
    [] "packages/base.yaml" "packages" [] exampleOSInfo exampleInitConfig _ rfl rfl rfl rfl
  have h2 := C12_failure_report_lists_failed_units (exampleEnv [entryW] failOnX)
    [] "packages/base.yaml" "packages" [] exampleOSInfo exampleInitConfig _ rfl rfl rfl rfl
  refine ⟨h.1.trans (by decide), h.2.2.2.1.trans (by decide), h2.2.2.2.2.mpr (by decide)⟩

/-- C13, as stated, fails: for the unit `z` with the unknown manager `unknown-xyz` the line of
the failure report, and of the warning summary, is `Package z: unsupported package manager:
unknown-xyz`, which has the word `Package` before the unit name and so is not the line
`z: unsupported package manager: unknown-xyz` the claim describes. -/
theorem C13_report_line_counterexample :
    (ProcessPackagesFromData (exampleEnv [entryUnknown] failOnX) [] "packages" exampleOSInfo
        exampleInitConfig).failedPackages
        = ["Package z: unsupported package manager: unknown-xyz"]
      ∧ (ProcessPackagesFromData (exampleEnv [entryUnknown] failOnX) [] "packages"
          exampleOSInfo exampleInitConfig).warnings
        = ["Failed to install the following packages:",
           "Package z: unsupported package manager: unknown-xyz"]
      ∧ (unitOutcomes exampleOSInfo exampleInitConfig failOnX (specUnits [entryUnknown])
          []).filterMap specReportLine
        = ["z: unsupported package manager: unknown-xyz"]
      ∧ (ProcessPackagesFromData (exampleEnv [entryUnknown] failOnX) [] "packages"
          exampleOSInfo exampleInitConfig).failedPackages
        ≠ (unitOutcomes exampleOSInfo exampleInitConfig failOnX (specUnits [entryUnknown])
            []).filterMap specReportLine := by
  refine ⟨by decide, by decide, by decide, by decide⟩

/-- C13, amended: each line of the failure report of both processors is exactly
`Package <unitName>: <error>` for a unit whose handling returned that error, and every failed
unit has such a line; the warning summary is empty when the report is, and otherwise the
header line followed by the lines of the report. -/
theorem C13_report_line_format (env : Collaborators)
    (blueprintData : List UInt8) (blueprintFile blueprintDir : String) (fileBytes : List UInt8)
    (osInfo : OSInfo) (initConfig : InitConfig) (packages : List Package)
    (hdec : env.UnmarshalBlueprint blueprintData initConfig.Init.Format
      = .ok { Packages := packages })
    (hread : env.ReadFile blueprintFile = .ok fileBytes)
    (hdecFile : env.UnmarshalBlueprint fileBytes (Ext blueprintFile)
      = .ok { Packages := packages })
    (hset : env.SetPaths = none) :
    (∀ line : String,
        line ∈ (ProcessPackagesFromData env blueprintData blueprintDir osInfo
            initConfig).failedPackages
          ↔ ∃ unit err,
              (unit, some err)
                ∈ unitOutcomes osInfo initConfig env.RunCommand (specUnits packages) []
              ∧ line = "Package " ++ unit.Name ++ ": " ++ err.Error)
      ∧ (∀ line : String,
        line ∈ (ProcessPackagesFromFile env blueprintFile blueprintDir osInfo
            initConfig).failedPackages
          ↔ ∃ unit err,
              (unit, some err)
                ∈ unitOutcomes osInfo initConfig env.RunCommand (specUnits packages) []
              ∧ line = "Package " ++ unit.Name ++ ": " ++ err.Error)
      ∧ (ProcessPackagesFromData env blueprintData blueprintDir osInfo initConfig).warnings
        = (if (ProcessPackagesFromData env blueprintData blueprintDir osInfo
              initConfig).failedPackages = [] then []
          else "Failed to install the following packages:"
            :: (ProcessPackagesFromData env blueprintData blueprintDir osInfo
                initConfig).failedPackages) := by
  have hline : ∀ (outcomes : List (Package × Option PkgError)) (line : String),
      line ∈ outcomes.filterMap reportLine
        ↔ ∃ unit err, (unit, some err) ∈ outcomes
            ∧ line = "Package " ++ unit.Name ++ ": " ++ err.Error := by
    intro outcomes line
    simp only [List.mem_filterMap, reportLine]
    constructor
    · rintro ⟨⟨u, e⟩, hmem, hl⟩
      cases e with
      | none => simp at hl
      | some err =>
        simp only [Option.some.injEq] at hl
        exact ⟨u, err, hmem, hl.symm⟩
    · rintro ⟨u, err, hmem, hl⟩
      exact ⟨(u, some err), hmem, by simp [hl]⟩
  refine ⟨?_, ?_, ?_⟩
  · intro line
    rw [data_failedPackages env blueprintData blueprintDir osInfo initConfig packages hdec
      hset]
    exact hline _ line
  · intro line
    rw [file_failedPackages env blueprintFile blueprintDir fileBytes osInfo initConfig
      packages hread hdecFile hset]
    exact hline _ line
  · simp only [ProcessPackagesFromData, hdec, hset, warnFailed]
    cases (dataLoop packages osInfo initConfig env.RunCommand
      { calls := [], failedPackages := [] }).failedPackages <;> simp

/-- Worked example for the amended C13: the report of the blueprint `[x and y, z]` with an
executor failing on `x`. -/
theorem C13_report_line_format_witness :
    ("Package z: unsupported package manager: unknown-xyz"
        ∈ (ProcessPackagesFromData (exampleEnv [entryXY, entryUnknown] failOnX) [] "packages"
            exampleOSInfo exampleInitConfig).failedPackages)
      ∧ (ProcessPackagesFromData (exampleEnv [entryXY, entryUnknown] failOnX) [] "packages"
          exampleOSInfo exampleInitConfig).warnings
        = ["Failed to install the following packages:",
           "Package x: error processing package x: exit status 100",
           "Package z: unsupported package manager: unknown-xyz"] := by
  have h := C13_report_line_format (exampleEnv [entryXY, entryUnknown] failOnX)
    [] "packages/base.yaml" "packages" [] exampleOSInfo exampleInitConfig _ rfl rfl rfl rfl
  refine ⟨(h.1 _).mpr ⟨entryUnknown, PkgError.unsupportedManager "unknown-xyz", by decide,
    by decide⟩, h.2.2.trans (by decide)⟩

/-! ## The blueprints location -/

theorem probeInit_spec (fs : FileSystem) (localPath : String) (gitOps : List GitOp)
    (stats : List String) :
    (probeInit fs localPath gitOps stats).initFilePath
        = firstExisting fs (initCandidates localPath)
      ∧ (probeInit fs localPath gitOps stats).gitOps = gitOps
      ∧ (probeInit fs localPath gitOps stats).stats
        = stats ++ probedPaths fs (initCandidates localPath)
      ∧ (probeInit fs localPath gitOps stats).err
        = (if ∀ p ∈ initCandidates localPath, fs p = true then some .initFileNotFound
          else none)
      ∧ (probeInit fs localPath gitOps stats).path
        = (if ∀ p ∈ initCandidates localPath, fs p = true then "" else localPath) := by
  cases h1 : fs (Join [localPath, "init.yaml"]) <;>
    cases h2 : fs (Join [localPath, "init.json"]) <;>
    cases h3 : fs (Join [localPath, "init.toml"]) <;>
    simp [probeInit, firstExisting, initCandidates, probedPaths, h1, h2, h3]

theorem location_of_source_ok (settings : BlueprintsSettings) (git : Git) (fs : FileSystem)
    (update : Bool) (probed : FileSystem)
    (h : specSourceStep settings git fs update = .ok probed) :
    GetBlueprintsLocation settings git fs update
      = probeInit probed settings.localPath (expectedGitOps settings git fs update)
          (if settings.remoteStoreType = "git" then [settings.localPath] else []) := by
  unfold specSourceStep at h
  unfold GetBlueprintsLocation expectedGitOps
  by_cases htype : settings.remoteStoreType = "git"
  · cases hex : fs settings.localPath with
    | true =>
      cases hc : git.PlainClone fs settings.localPath settings.remoteStoreURL with
      | mk e cloned =>
        cases e with
        | some err => simp [htype, hex, hc] at h
        | none =>
          simp [htype, hex, hc] at h
          subst h
          simp [htype, hex, hc]
    | false =>
      cases hu : update with
      | false =>
        simp [htype, hex, hu] at h
        subst h
        simp [htype, hex]
      | true =>
        cases ho : git.PlainOpen fs settings.localPath with
        | some err => simp [htype, hex, hu, ho] at h
        | none =>
          cases hw : git.Worktree fs settings.localPath with
          | some err => simp [htype, hex, hu, ho, hw] at h
          | none =>
            cases hp : git.Pull fs settings.localPath with
            | mk e pulled =>
              cases e with
              | none =>
                simp [htype, hex, hu, ho, hw, hp] at h
                subst h
                simp [htype, hex, ho, hw, hp]
              | some err =>
                cases ha : err.alreadyUpToDate with
                | false => simp [htype, hex, hu, ho, hw, hp, ha] at h
                | true =>
                  simp [htype, hex, hu, ho, hw, hp, ha] at h
                  subst h
                  simp [htype, hex, ho, hw, hp, ha]
  · simp [htype] at h
    subst h
    simp [htype]

theorem location_of_source_error (settings : BlueprintsSettings) (git : Git) (fs : FileSystem)
    (update : Bool) (e : LocationError)
    (h : specSourceStep settings git fs update = .error e) :
    GetBlueprintsLocation settings git fs update
      = { path := "", err := some e, gitOps := expectedGitOps settings git fs update,
          stats := [settings.localPath], initFilePath := none } := by
  unfold specSourceStep at h
  unfold GetBlueprintsLocation expectedGitOps
  by_cases htype : settings.remoteStoreType = "git"
  · cases hex : fs settings.localPath with
    | true =>
      cases hc : git.PlainClone fs settings.localPath settings.remoteStoreURL with
      | mk e2 cloned =>
        cases e2 with
        | some err =>
          simp [htype, hex, hc] at h
          subst h
          simp [htype, hex, hc]
        | none => simp [htype, hex, hc] at h
    | false =>
      cases hu : update with
      | false => simp [htype, hex, hu] at h
      | true =>
        cases ho : git.PlainOpen fs settings.localPath with
        | some err =>
          simp [htype, hex, hu, ho] at h
          subst h
          simp [htype, hex, ho]
        | none =>
          cases hw : git.Worktree fs settings.localPath with
          | some err =>
            simp [htype, hex, hu, ho, hw] at h
            subst h
            simp [htype, hex, ho, hw]
          | none =>
            cases hp : git.Pull fs settings.localPath with
            | mk e2 pulled =>
              cases e2 with
              | none => simp [htype, hex, hu, ho, hw, hp] at h
              | some err =>
                cases ha : err.alreadyUpToDate with
                | false =>
                  simp [htype, hex, hu, ho, hw, hp, ha] at h
                  subst h
                  simp [htype, hex, ho, hw, hp, ha]
                | true => simp [htype, hex, hu, ho, hw, hp, ha] at h
  · simp [htype] at h

/-- C14: when the source step does not fail and leaves the file system `probed`, the init probe
of `GetBlueprintsLocation` looks at `init.yaml`, then `init.json`, then `init.toml` under the
local path, stopping at the first that exists, and selects that one (`init.yaml` whenever it
exists, `init.json` only when `init.yaml` is absent, `init.toml` only when both are absent);
the function returns the local path and no error if at least one exists, and the
init-file-not-found error with an empty path exactly when none exists. -/
theorem C14_init_probe_precedence (settings : BlueprintsSettings) (git : Git)
    (fs : FileSystem) (update : Bool) (probed : FileSystem)
    (h : specSourceStep settings git fs update = .ok probed) :
    (GetBlueprintsLocation settings git fs update).initFilePath
        = firstExisting probed (initCandidates settings.localPath)
      ∧ (GetBlueprintsLocation settings git fs update).stats
        = (if settings.remoteStoreType = "git" then [settings.localPath] else [])
          ++ probedPaths probed (initCandidates settings.localPath)
      ∧ (probed (Join [settings.localPath, "init.yaml"]) = false →
          (GetBlueprintsLocation settings git fs update).initFilePath
            = some (Join [settings.localPath, "init.yaml"]))
      ∧ (probed (Join [settings.localPath, "init.yaml"]) = true →
          probed (Join [settings.localPath, "init.json"]) = false →
          (GetBlueprintsLocation settings git fs update).initFilePath
            = some (Join [settings.localPath, "init.json"]))
      ∧ (probed (Join [settings.localPath, "init.yaml"]) = true →
          probed (Join [settings.localPath, "init.json"]) = true →
          probed (Join [settings.localPath, "init.toml"]) = false →
          (GetBlueprintsLocation settings git fs update).initFilePath
            = some (Join [settings.localPath, "init.toml"]))
      ∧ ((∃ p ∈ initCandidates settings.localPath, probed p = false) →
          (GetBlueprintsLocation settings git fs update).path = settings.localPath
            ∧ (GetBlueprintsLocation settings git fs update).err = none)
      ∧ ((GetBlueprintsLocation settings git fs update).err = some .initFileNotFound
          ↔ ∀ p ∈ initCandidates settings.localPath, probed p = true)
      ∧ ((GetBlueprintsLocation settings git fs update).err = some .initFileNotFound →
          (GetBlueprintsLocation settings git fs update).path = "") := by
  rw [location_of_source_ok settings git fs update probed h]
  obtain ⟨hfile, _, hstats, herr, hpath⟩ := probeInit_spec probed settings.localPath
    (expectedGitOps settings git fs update)
    (if settings.remoteStoreType = "git" then [settings.localPath] else [])
  refine ⟨hfile, hstats, ?_, ?_, ?_, ?_, ?_, ?_⟩
  · intro h1
    rw [hfile]
    simp [firstExisting, initCandidates, h1]
  · intro h1 h2
    rw [hfile]
    simp [firstExisting, initCandidates, h1, h2]
  · intro h1 h2 h3
    rw [hfile]
    simp [firstExisting, initCandidates, h1, h2, h3]
  · rintro ⟨p, hp, hpf⟩
    have hnot : ¬ ∀ q ∈ initCandidates settings.localPath, probed q = true := by
      intro hall
      rw [hall p hp] at hpf
      exact Bool.noConfusion hpf
    rw [hpath, herr, if_neg hnot, if_neg hnot]
    exact ⟨rfl, rfl⟩
  · rw [herr]
    by_cases hall : ∀ p ∈ initCandidates settings.localPath, probed p = true
    · rw [if_pos hall]
      exact ⟨fun _ => hall, fun _ => rfl⟩
    · rw [if_neg hall]
      exact ⟨fun hn => by simp at hn, fun hn => absurd hn hall⟩
  · rw [herr, hpath]
    by_cases hall : ∀ p ∈ initCandidates settings.localPath, probed p = true
    · rw [if_pos hall, if_pos hall]
      exact fun _ => rfl
    · rw [if_neg hall, if_neg hall]
      intro hn
      simp at hn

/-- Worked example for C14: without a git remote, a local path holding `init.json` and
`init.toml` selects `init.json` after looking at `init.yaml` and `init.json` only; a local path
holding none of the three gives the init-file-not-found error and an empty path. -/
theorem C14_init_probe_precedence_witness :
    specSourceStep { exampleSettings with remoteStoreType := "local" } gitCannotOpen
        (onlyFiles ["bp", "bp/init.json", "bp/init.toml"]) false
        = .ok (onlyFiles ["bp", "bp/init.json", "bp/init.toml"])
      ∧ GetBlueprintsLocation { exampleSettings with remoteStoreType := "local" } gitCannotOpen
          (onlyFiles ["bp", "bp/init.json", "bp/init.toml"]) false
        = { path := "bp", err := none, gitOps := [],
            stats := ["bp/init.yaml", "bp/init.json"], initFilePath := some "bp/init.json" }
      ∧ (GetBlueprintsLocation { exampleSettings with remoteStoreType := "local" }
          gitCannotOpen (onlyFiles ["bp", "bp/init.json", "bp/init.toml"]) false).initFilePath
        = some "bp/init.json"
      ∧ GetBlueprintsLocation { exampleSettings with remoteStoreType := "local" } gitCannotOpen
          (onlyFiles ["bp"]) false
        = { path := "", err := some .initFileNotFound, gitOps := [],
            stats := ["bp/init.yaml", "bp/init.json", "bp/init.toml"],
            initFilePath := none } := by
  have h := C14_init_probe_precedence { exampleSettings with remoteStoreType := "local" }
    gitCannotOpen (onlyFiles ["bp", "bp/init.json", "bp/init.toml"]) false
    (onlyFiles ["bp", "bp/init.json", "bp/init.toml"]) rfl
  exact ⟨rfl, by decide, h.1.trans (by decide), by decide⟩

/-- C15: with a git remote, an existing local path, an update requested and a repository that
opens and gives its worktree, a pull that returns the already-up-to-date condition is treated
exactly like a pull that returns no error (the function goes on to the init probe, and returns
the local path and no error when an init file exists), whereas every other pull error makes
the function return the pull error and an empty path. -/
theorem C15_already_up_to_date_is_no_error (settings : BlueprintsSettings) (git : Git)
    (fs : FileSystem) (pullResult : Option PullError) (pulled : FileSystem)
    (htype : settings.remoteStoreType = "git")
    (hexists : fs settings.localPath = false)
    (hopen : git.PlainOpen fs settings.localPath = none)
    (hworktree : git.Worktree fs settings.localPath = none)
    (hpull : git.Pull fs settings.localPath = (pullResult, pulled)) :
    ((pullResult = none ∨ ∃ e, pullResult = some e ∧ e.alreadyUpToDate = true) →
        GetBlueprintsLocation settings git fs true
            = GetBlueprintsLocation settings
                { git with Pull := fun _ _ => (none, pulled) } fs true
          ∧ GetBlueprintsLocation settings git fs true
            = probeInit pulled settings.localPath
                [.plainOpen settings.localPath, .worktree settings.localPath,
                 .pull settings.localPath] [settings.localPath]
          ∧ ((∃ p ∈ initCandidates settings.localPath, pulled p = false) →
              (GetBlueprintsLocation settings git fs true).path = settings.localPath
                ∧ (GetBlueprintsLocation settings git fs true).err = none))
      ∧ (∀ e, pullResult = some e → e.alreadyUpToDate = false →
          (GetBlueprintsLocation settings git fs true).path = ""
            ∧ (GetBlueprintsLocation settings git fs true).err = some (.pulling e.message)
            ∧ (GetBlueprintsLocation settings git fs true).initFilePath = none) := by
  constructor
  · intro hok
    have hmain : GetBlueprintsLocation settings git fs true
        = probeInit pulled settings.localPath
            [.plainOpen settings.localPath, .worktree settings.localPath,
             .pull settings.localPath] [settings.localPath] := by
      unfold GetBlueprintsLocation
      rcases hok with hnone | ⟨e, hsome, hup⟩
      · subst hnone
        simp [htype, hexists, hopen, hworktree, hpull]
      · subst hsome
        simp [htype, hexists, hopen, hworktree, hpull, hup]
    have hother : GetBlueprintsLocation settings
        { git with Pull := fun _ _ => (none, pulled) } fs true
        = probeInit pulled settings.localPath
            [.plainOpen settings.localPath, .worktree settings.localPath,
             .pull settings.localPath] [settings.localPath] := by
      unfold GetBlueprintsLocation
      simp [htype, hexists, hopen, hworktree]
    refine ⟨hmain.trans hother.symm, hmain, ?_⟩
    rintro ⟨p, hp, hpf⟩
    obtain ⟨_, _, _, herr, hpath⟩ := probeInit_spec pulled settings.localPath
      [.plainOpen settings.localPath, .worktree settings.localPath,
       .pull settings.localPath] [settings.localPath]
    have hnot : ¬ ∀ q ∈ initCandidates settings.localPath, pulled q = true := by
      intro hall
      rw [hall p hp] at hpf
      exact Bool.noConfusion hpf
    rw [hmain, hpath, herr, if_neg hnot, if_neg hnot]
    exact ⟨rfl, rfl⟩
  · intro e hsome hup
    subst hsome
    unfold GetBlueprintsLocation
    simp [htype, hexists, hopen, hworktree, hpull, hup]

/-- Worked example for C15: on an already synced repository holding `init.yaml`, a pull that
reports already-up-to-date returns the local path and no error, as a clean pull does; a pull
that fails otherwise returns its error and an empty path. -/
theorem C15_already_up_to_date_is_no_error_witness :
    GetBlueprintsLocation exampleSettings
        (gitPullFails { message := "already up-to-date", alreadyUpToDate := true }
          ["bp", "bp/init.yaml"])
        (onlyFiles ["bp", "bp/init.yaml"]) true
        = { path := "bp", err := none,
            gitOps := [.plainOpen "bp", .worktree "bp", .pull "bp"],
            stats := ["bp", "bp/init.yaml"], initFilePath := some "bp/init.yaml" }
      ∧ GetBlueprintsLocation exampleSettings
          (gitPullFails { message := "already up-to-date", alreadyUpToDate := true }
            ["bp", "bp/init.yaml"])
          (onlyFiles ["bp", "bp/init.yaml"]) true
        = GetBlueprintsLocation exampleSettings (gitSucceeds ["bp", "bp/init.yaml"])
          (onlyFiles ["bp", "bp/init.yaml"]) true
      ∧ (GetBlueprintsLocation exampleSettings
          (gitPullFails { message := "connection refused", alreadyUpToDate := false }
            ["bp", "bp/init.yaml"])
          (onlyFiles ["bp", "bp/init.yaml"]) true).path = ""
      ∧ (GetBlueprintsLocation exampleSettings
          (gitPullFails { message := "connection refused", alreadyUpToDate := false }
            ["bp", "bp/init.yaml"])
          (onlyFiles ["bp", "bp/init.yaml"]) true).err
        = some (.pulling "connection refused") := by
  have h := C15_already_up_to_date_is_no_error exampleSettings
    (gitPullFails { message := "already up-to-date", alreadyUpToDate := true }
      ["bp", "bp/init.yaml"])
    (onlyFiles ["bp", "bp/init.yaml"])
    (some { message := "already up-to-date", alreadyUpToDate := true })
    (onlyFiles ["bp", "bp/init.yaml"]) rfl rfl rfl rfl rfl
  have h2 := C15_already_up_to_date_is_no_error exampleSettings
    (gitPullFails { message := "connection refused", alreadyUpToDate := false }
      ["bp", "bp/init.yaml"])
    (onlyFiles ["bp", "bp/init.yaml"])
    (some { message := "connection refused", alreadyUpToDate := false })
    (onlyFiles ["bp", "bp/init.yaml"]) rfl rfl rfl rfl rfl
  have hup := h.1 (Or.inr ⟨_, rfl, rfl⟩)
  have hbad := h2.2 _ rfl rfl
  exact ⟨hup.2.1.trans (by decide), by decide, hbad.1, hbad.2.1⟩

theorem location_gitOps (settings : BlueprintsSettings) (git : Git) (fs : FileSystem)
    (update : Bool) :
    (GetBlueprintsLocation settings git fs update).gitOps
      = expectedGitOps settings git fs update := by
  cases h : specSourceStep settings git fs update with
  | ok probed =>
    rw [location_of_source_ok settings git fs update probed h]
    exact (probeInit_spec _ _ _ _).2.1
  | error e => rw [location_of_source_error settings git fs update e h]

/-- C16, as stated, fails: with a git remote, an existing local path and an update requested,
no pull is attempted when the repository does not open; the only git operation attempted is
the opening, so the pull is not decided by the remote type, the existence of the local path and
the update flag alone. -/
theorem C16_pull_attempt_counterexample :
    exampleSettings.remoteStoreType = "git"
      ∧ onlyFiles ["bp", "bp/init.yaml"] exampleSettings.localPath = false
      ∧ (GetBlueprintsLocation exampleSettings gitCannotOpen (onlyFiles ["bp", "bp/init.yaml"])
          true).gitOps = [.plainOpen "bp"]
      ∧ (GetBlueprintsLocation exampleSettings gitCannotOpen (onlyFiles ["bp", "bp/init.yaml"])
          true).err = some (.opening "repository does not exist")
      ∧ ¬ (GitOp.pull "bp"
            ∈ (GetBlueprintsLocation exampleSettings gitCannotOpen
                (onlyFiles ["bp", "bp/init.yaml"]) true).gitOps
          ↔ (exampleSettings.remoteStoreType = "git"
            ∧ onlyFiles ["bp", "bp/init.yaml"] exampleSettings.localPath = false
            ∧ true = true)) := by
  refine ⟨by decide, by decide, by decide, by decide, by decide⟩

/-- C16, amended: a clone of the remote URL into the local path is attempted exactly when the
remote type is `git` and the local path does not exist; the repository is opened exactly when
the remote type is `git`, the local path exists and an update is requested, and the pull is
attempted exactly when, in addition, the repository opens and gives its worktree; for every
other remote type no git operation is attempted and the local path is probed as it is.  A
failed clone returns its error with an empty path without running the init probe; a successful
clone followed by an existing `init.yaml` returns the local path and no error. -/
theorem C16_git_operation_selection (settings : BlueprintsSettings) (git : Git)
    (fs : FileSystem) (update : Bool) :
    (GetBlueprintsLocation settings git fs update).gitOps
        = expectedGitOps settings git fs update
      ∧ (GitOp.clone settings.localPath settings.remoteStoreURL
            ∈ (GetBlueprintsLocation settings git fs update).gitOps
          ↔ (settings.remoteStoreType = "git" ∧ fs settings.localPath = true))
      ∧ (GitOp.plainOpen settings.localPath
            ∈ (GetBlueprintsLocation settings git fs update).gitOps
          ↔ (settings.remoteStoreType = "git" ∧ fs settings.localPath = false
              ∧ update = true))
      ∧ (GitOp.pull settings.localPath
            ∈ (GetBlueprintsLocation settings git fs update).gitOps
          ↔ (settings.remoteStoreType = "git" ∧ fs settings.localPath = false
              ∧ update = true ∧ git.PlainOpen fs settings.localPath = none
              ∧ git.Worktree fs settings.localPath = none))
      ∧ (settings.remoteStoreType ≠ "git" →
          GetBlueprintsLocation settings git fs update
              = probeInit fs settings.localPath [] []
            ∧ (GetBlueprintsLocation settings git fs update).gitOps = [])
      ∧ (∀ (err : String) (after : FileSystem), settings.remoteStoreType = "git" →
          fs settings.localPath = true →
          git.PlainClone fs settings.localPath settings.remoteStoreURL = (some err, after) →
          GetBlueprintsLocation settings git fs update
            = { path := "", err := some (.cloning err),
                gitOps := [.clone settings.localPath settings.remoteStoreURL],
                stats := [settings.localPath], initFilePath := none })
      ∧ (∀ cloned : FileSystem, settings.remoteStoreType = "git" →
          fs settings.localPath = true →
          git.PlainClone fs settings.localPath settings.remoteStoreURL = (none, cloned) →
          cloned (Join [settings.localPath, "init.yaml"]) = false →
          (GetBlueprintsLocation settings git fs update).path = settings.localPath
            ∧ (GetBlueprintsLocation settings git fs update).err = none) := by
  refine ⟨location_gitOps settings git fs update, ?_, ?_, ?_, ?_, ?_, ?_⟩
  · rw [location_gitOps]
    unfold expectedGitOps
    by_cases htype : settings.remoteStoreType = "git" <;>
      cases hex : fs settings.localPath <;> cases hu : update <;>
      cases ho : git.PlainOpen fs settings.localPath <;>
      cases hw : git.Worktree fs settings.localPath <;> simp [htype]
  · rw [location_gitOps]
    unfold expectedGitOps
    by_cases htype : settings.remoteStoreType = "git" <;>
      cases hex : fs settings.localPath <;> cases hu : update <;>
      cases ho : git.PlainOpen fs settings.localPath <;>
      cases hw : git.Worktree fs settings.localPath <;> simp [htype]
  · rw [location_gitOps]
    unfold expectedGitOps
    by_cases htype : settings.remoteStoreType = "git" <;>
      cases hex : fs settings.localPath <;> cases hu : update <;>
      cases ho : git.PlainOpen fs settings.localPath <;>
      cases hw : git.Worktree fs settings.localPath <;> simp [htype]
  · intro htype
    have hmain : GetBlueprintsLocation settings git fs update
        = probeInit fs settings.localPath [] [] := by
      unfold GetBlueprintsLocation
      simp [htype]
    refine ⟨hmain, ?_⟩
    rw [hmain]
    exact (probeInit_spec _ _ _ _).2.1
  · intro err after htype hex hc
    unfold GetBlueprintsLocation
    simp [htype, hex, hc]
  · intro cloned htype hex hc hyaml
    have hmain : GetBlueprintsLocation settings git fs update
        = probeInit cloned settings.localPath
            [.clone settings.localPath settings.remoteStoreURL] [settings.localPath] := by
      unfold GetBlueprintsLocation
      simp [htype, hex, hc]
    rw [hmain]
    simp [probeInit, hyaml]

/-- Worked example for the amended C16: with a git remote and a local path that does not exist,
the URL is cloned and, `init.yaml` being there afterwards, the local path is returned; a failed
clone returns its error, an empty path and does not probe for the init file; an existing local
path that opens is pulled when an update is requested and left alone otherwise. -/
theorem C16_git_operation_selection_witness :
    GetBlueprintsLocation exampleSettings (gitSucceeds ["bp", "bp/init.yaml"]) (onlyFiles [])
        false
        = { path := "bp", err := none, gitOps := [.clone "bp" "https://example/repo.git"],
            stats := ["bp", "bp/init.yaml"], initFilePath := some "bp/init.yaml" }
      ∧ GetBlueprintsLocation exampleSettings gitCloneFails (onlyFiles []) false
        = { path := "", err := some (.cloning "authentication required"),
            gitOps := [.clone "bp" "https://example/repo.git"], stats := ["bp"],
            initFilePath := none }
      ∧ (GetBlueprintsLocation exampleSettings (gitSucceeds ["bp", "bp/init.yaml"])
          (onlyFiles ["bp", "bp/init.yaml"]) true).gitOps
        = [.plainOpen "bp", .worktree "bp", .pull "bp"]
      ∧ (GetBlueprintsLocation exampleSettings (gitSucceeds ["bp", "bp/init.yaml"])
          (onlyFiles ["bp", "bp/init.yaml"]) false).gitOps = [] := by
  have h := C16_git_operation_selection exampleSettings gitCloneFails (onlyFiles []) false
  have h2 := C16_git_operation_selection exampleSettings (gitSucceeds ["bp", "bp/init.yaml"])
    (onlyFiles ["bp", "bp/init.yaml"]) true
  exact ⟨by decide, h.2.2.2.2.2.1 "authentication required" (onlyFiles []) rfl rfl rfl,
    h2.1.trans (by decide), by decide⟩

/-! ## Re-running, single commands, and the two processors compared -/

theorem data_calls (env : Collaborators) (blueprintData : List UInt8)
    (blueprintDir : String) (osInfo : OSInfo) (initConfig : InitConfig)
    (packages : List Package)
    (hdec : env.UnmarshalBlueprint blueprintData initConfig.Init.Format
      = .ok { Packages := packages })
    (hset : env.SetPaths = none) :
    (ProcessPackagesFromData env blueprintData blueprintDir osInfo initConfig).calls
      = (specUnits packages).filterMap (specCommand osInfo) := by
  simp only [ProcessPackagesFromData, hdec, hset]
  rw [dataLoop_eq_foldl, foldl_stepUnit_calls]
  rfl

theorem entryUnits_action (entry : Package) :
    ∀ u ∈ entryUnits entry, u.Action = entry.Action := by
  intro u hu
  unfold entryUnits at hu
  split at hu
  · simp only [List.mem_map] at hu
    obtain ⟨n, _, rfl⟩ := hu
    rfl
  · simp only [List.mem_singleton] at hu
    subst hu
    rfl

theorem specCommand_of_install (osInfo : OSInfo) (unit : Package)
    (hact : unit.Action = "install")
    (hpm : unit.PackageManager = "" ∨ unit.PackageManager ∈ supportedManagers) :
    ∃ cmd, specCommand osInfo unit = some cmd := by
  have hne : specResolveManager unit.PackageManager osInfo ≠ none := by
    intro hnone
    rw [specResolveManager_eq_none_iff] at hnone
    rcases hpm with h | h
    · exact hnone.1 h
    · exact hnone.2 h
  cases hm : specResolveManager unit.PackageManager osInfo with
  | none => exact absurd hm hne
  | some m =>
    exact ⟨{ Exec := m.Install, Args := [unit.Name], Elevated := m.Elevated || unit.Elevated },
      by simp [specCommand, hm, hact]⟩

theorem unitOutcomes_all_succeed (osInfo : OSInfo) (initConfig : InitConfig) (run : Executor)
    (units : List Package) (calls : List Command)
    (hcmd : ∀ u ∈ units, ∃ cmd, specCommand osInfo u = some cmd)
    (hrun : ∀ history cmd debug, run history cmd debug = none) :
    ∀ o ∈ unitOutcomes osInfo initConfig run units calls, o.2 = none := by
  induction units generalizing calls with
  | nil => intro o ho; simp [unitOutcomes] at ho
  | cons u us ih =>
    intro o ho
    simp only [unitOutcomes, List.mem_cons] at ho
    rcases ho with ho | ho
    · obtain ⟨cmd, hc⟩ := hcmd u (List.mem_cons_self _ _)
      rw [ho, HandlePackage_of_command _ _ _ _ _ _ hc, hrun]
      rfl
    · exact ih _ (fun v hv => hcmd v (List.mem_cons_of_mem _ hv)) o ho

/-- C17: for a blueprint whose entries all have action `install` and a supported or empty
manager, and an executor that reports success for every command, `ProcessPackagesFromData`
yields an empty failure report; a second run over the same blueprint, its executor having seen
the commands of the first run, again yields an empty failure report and hands the executor the
same sequence of commands. -/
theorem C17_install_only_rerun_is_clean (env : Collaborators) (blueprintData : List UInt8)
    (blueprintDir : String) (osInfo : OSInfo) (initConfig : InitConfig)
    (packages : List Package)
    (hdec : env.UnmarshalBlueprint blueprintData initConfig.Init.Format
      = .ok { Packages := packages })
    (hset : env.SetPaths = none)
    (hinstall : ∀ entry ∈ packages, entry.Action = "install"
      ∧ (entry.PackageManager = "" ∨ entry.PackageManager ∈ supportedManagers))
    (hrun : ∀ history cmd debug, env.RunCommand history cmd debug = none) :
    (ProcessPackagesFromData env blueprintData blueprintDir osInfo initConfig).failedPackages
        = []
      ∧ (ProcessPackagesFromData env blueprintData blueprintDir osInfo initConfig).warnings = []
      ∧ (ProcessPackagesFromData
          (laterRun env
            (ProcessPackagesFromData env blueprintData blueprintDir osInfo initConfig).calls)
          blueprintData blueprintDir osInfo initConfig).failedPackages = []
      ∧ (ProcessPackagesFromData
          (laterRun env
            (ProcessPackagesFromData env blueprintData blueprintDir osInfo initConfig).calls)
          blueprintData blueprintDir osInfo initConfig).calls
        = (ProcessPackagesFromData env blueprintData blueprintDir osInfo initConfig).calls
      ∧ (ProcessPackagesFromData env blueprintData blueprintDir osInfo initConfig).calls.length
        = (specUnits packages).length := by
  have hcmd : ∀ u ∈ specUnits packages, ∃ cmd, specCommand osInfo u = some cmd := by
    intro u hu
    simp only [specUnits, List.mem_flatMap] at hu
    obtain ⟨entry, hentry, hmem⟩ := hu
    obtain ⟨hact, hpm⟩ := hinstall entry hentry
    apply specCommand_of_install
    · rw [entryUnits_action entry u hmem, hact]
    · rw [entryUnits_manager entry u hmem]
      exact hpm
  have hclean : ∀ (e2 : Collaborators),
      e2.UnmarshalBlueprint blueprintData initConfig.Init.Format
        = .ok { Packages := packages } →
      e2.SetPaths = none →
      (∀ history cmd debug, e2.RunCommand history cmd debug = none) →
      (ProcessPackagesFromData e2 blueprintData blueprintDir osInfo initConfig).failedPackages
        = [] := by
    intro e2 hd hs hr
    rw [data_failedPackages e2 blueprintData blueprintDir osInfo initConfig packages hd hs,
      filterMap_reportLine_eq_nil]
    exact unitOutcomes_all_succeed _ _ _ _ _ hcmd hr
  have hfirst := hclean env hdec hset hrun
  refine ⟨hfirst, ?_, ?_, ?_, ?_⟩
  · have hw : (ProcessPackagesFromData env blueprintData blueprintDir osInfo
        initConfig).warnings
        = warnFailed (ProcessPackagesFromData env blueprintData blueprintDir osInfo
          initConfig).failedPackages := by
      simp only [ProcessPackagesFromData, hdec, hset]
    rw [hw, hfirst]
    rfl
  · exact hclean _ hdec hset (fun history cmd debug => hrun _ cmd debug)
  · rw [data_calls env blueprintData blueprintDir osInfo initConfig packages hdec hset]
    exact data_calls _ blueprintData blueprintDir osInfo initConfig packages hdec hset
  · rw [data_calls env blueprintData blueprintDir osInfo initConfig packages hdec hset]
    have hlen : ∀ units : List Package,
        (∀ u ∈ units, ∃ cmd, specCommand osInfo u = some cmd) →
        (units.filterMap (specCommand osInfo)).length = units.length := by
      intro units
      induction units with
      | nil => intro _; rfl
      | cons u us ih =>
        intro hall
        obtain ⟨cmd, hc⟩ := hall u (List.mem_cons_self _ _)
        rw [List.filterMap_cons, hc]
        simp [ih (fun v hv => hall v (List.mem_cons_of_mem _ hv))]
    exact hlen _ hcmd

/-- Worked example for C17: the install-only blueprint `[x and y via apt, w via the default
manager]` with an executor that always succeeds gives an empty report and the same three
commands on the first and on the second run. -/
theorem C17_install_only_rerun_is_clean_witness :
    (ProcessPackagesFromData
        (exampleEnv [entryXY, { entryW with PackageManager := "" }] (fun _ _ _ => none))
        [] "packages" exampleOSInfo exampleInitConfig).failedPackages = []
      ∧ (ProcessPackagesFromData
        (exampleEnv [entryXY, { entryW with PackageManager := "" }] (fun _ _ _ => none))
        [] "packages" exampleOSInfo exampleInitConfig).calls
        = [{ Exec := "apt install -y", Args := ["x"], Elevated := true },
           { Exec := "apt install -y", Args := ["y"], Elevated := true },
           { Exec := "apt install -y", Args := ["w"], Elevated := true }] := by
  have h := C17_install_only_rerun_is_clean
    (exampleEnv [entryXY, { entryW with PackageManager := "" }] (fun _ _ _ => none))
    [] "packages" exampleOSInfo exampleInitConfig _ rfl rfl (by decide)
    (fun _ _ _ => rfl)
  exact ⟨h.1, by decide⟩

/-- C19: for every unit whose manager resolves and whose action is `install` or `remove`,
`HandlePackage` hands exactly one command to the executor, made of the template selected by
the action, the one-element argument list holding the unit's name (whatever the name, the
empty string included) and the computed elevated flag; it returns no error exactly when the
executor returned none.  An entry with neither `name` nor `names` is run as one unit with the
argument `""`. -/
theorem C19_one_command_per_supported_unit (pkg : Package) (osInfo : OSInfo)
    (initConfig : InitConfig) (run : Executor) (calls : List Command)
    (install remove : String) (elevated : Bool)
    (h : resolveManager pkg.PackageManager osInfo = .ok (install, remove, elevated))
    (hact : pkg.Action = "install" ∨ pkg.Action = "remove") :
    (HandlePackage pkg osInfo initConfig run calls).2
        = calls ++ [{ Exec := if pkg.Action = "install" then install else remove,
                      Args := [pkg.Name], Elevated := elevated || pkg.Elevated }]
      ∧ ((HandlePackage pkg osInfo initConfig run calls).1 = none
          ↔ run calls { Exec := if pkg.Action = "install" then install else remove,
                        Args := [pkg.Name], Elevated := elevated || pkg.Elevated }
              initConfig.Variables.Flags.Debug = none)
      ∧ (∀ (env : Collaborators) (blueprintData : List UInt8) (blueprintDir : String),
          pkg.Name = "" → pkg.Names = [] →
          env.UnmarshalBlueprint blueprintData initConfig.Init.Format
            = .ok { Packages := [pkg] } →
          env.SetPaths = none →
          (ProcessPackagesFromData env blueprintData blueprintDir osInfo initConfig).calls
            = [{ Exec := if pkg.Action = "install" then install else remove,
                 Args := [""], Elevated := elevated || pkg.Elevated }]) := by
  obtain ⟨m, hm, rfl, rfl, rfl⟩ := specResolveManager_of_resolved _ _ _ _ _ h
  have hc : specCommand osInfo pkg
      = some { Exec := if pkg.Action = "install" then m.Install else m.Remove,
               Args := [pkg.Name], Elevated := m.Elevated || pkg.Elevated } := by
    rcases hact with hi | hr
    · simp [specCommand, hm, hi]
    · simp [specCommand, hm, hr]
  refine ⟨?_, ?_, ?_⟩
  · rw [HandlePackage_of_command _ _ _ _ _ _ hc]
  · rw [HandlePackage_of_command _ _ _ _ _ _ hc]
    cases run calls { Exec := if pkg.Action = "install" then m.Install else m.Remove,
                      Args := [pkg.Name], Elevated := m.Elevated || pkg.Elevated }
      initConfig.Variables.Flags.Debug <;> simp
  · intro env blueprintData blueprintDir hname hnames hdec hset
    rw [data_calls env blueprintData blueprintDir osInfo initConfig [pkg] hdec hset]
    have hu : specUnits [pkg] = [pkg] := by
      simp only [specUnits, List.flatMap_cons, List.flatMap_nil, List.append_nil]
      exact entryUnits_of_no_names pkg (by simp [hnames])
    rw [hu, List.filterMap_cons, hc, hname]
    rfl

/-- Worked example for C19: an `apt` entry with neither `name` nor `names` runs the single
command `apt install -y` with the argument `""`, and `HandlePackage` returns the executor's
answer: no error here, an error for the unit `x` on which the executor fails. -/
theorem C19_one_command_per_supported_unit_witness :
    resolveManager "apt" exampleOSInfo = .ok ("apt install -y", "apt remove -y", true)
      ∧ HandlePackage { entryW with Name := "" } exampleOSInfo exampleInitConfig failOnX []
        = (none, [{ Exec := "apt install -y", Args := [""], Elevated := true }])
      ∧ (ProcessPackagesFromData (exampleEnv [{ entryW with Name := "" }] failOnX) []
          "packages" exampleOSInfo exampleInitConfig).calls
        = [{ Exec := "apt install -y", Args := [""], Elevated := true }]
      ∧ HandlePackage { entryW with Name := "x" } exampleOSInfo exampleInitConfig failOnX []
        = (some (.processing "x" "exit status 100"),
            [{ Exec := "apt install -y", Args := ["x"], Elevated := true }]) := by
  have hres : resolveManager "apt" exampleOSInfo
      = .ok ("apt install -y", "apt remove -y", true) := rfl
  have h := C19_one_command_per_supported_unit { entryW with Name := "" } exampleOSInfo
    exampleInitConfig failOnX [] _ _ _ hres (Or.inl rfl)
  exact ⟨hres, by decide,
    h.2.2 (exampleEnv [{ entryW with Name := "" }] failOnX) [] "packages" rfl rfl rfl rfl,
    by decide⟩

/-- C20: after decoding, `ProcessPackagesFromFile` and `ProcessPackagesFromData` are
equivalent: for every list of decoded entries, OS info and executor, they hand the same
sequence of commands to the executor, accumulate the same failure report, log the same
warnings and return the same result. -/
theorem C20_file_and_data_processors_agree (env : Collaborators)
    (blueprintData : List UInt8) (blueprintFile blueprintDir : String) (fileBytes : List UInt8)
    (osInfo : OSInfo) (initConfig : InitConfig) (packages : List Package)
    (hdec : env.UnmarshalBlueprint blueprintData initConfig.Init.Format
      = .ok { Packages := packages })
    (hread : env.ReadFile blueprintFile = .ok fileBytes)
    (hdecFile : env.UnmarshalBlueprint fileBytes (Ext blueprintFile)
      = .ok { Packages := packages })
    (hset : env.SetPaths = none) :
    ProcessPackagesFromFile env blueprintFile blueprintDir osInfo initConfig
        = ProcessPackagesFromData env blueprintData blueprintDir osInfo initConfig
      ∧ (ProcessPackagesFromFile env blueprintFile blueprintDir osInfo initConfig).calls
        = (ProcessPackagesFromData env blueprintData blueprintDir osInfo initConfig).calls
      ∧ (ProcessPackagesFromFile env blueprintFile blueprintDir osInfo
          initConfig).failedPackages
        = (ProcessPackagesFromData env blueprintData blueprintDir osInfo
          initConfig).failedPackages
      ∧ (ProcessPackagesFromFile env blueprintFile blueprintDir osInfo initConfig).err
        = (ProcessPackagesFromData env blueprintData blueprintDir osInfo initConfig).err := by
  have hmain : ProcessPackagesFromFile env blueprintFile blueprintDir osInfo initConfig
      = ProcessPackagesFromData env blueprintData blueprintDir osInfo initConfig := by
    simp only [ProcessPackagesFromFile, ProcessPackagesFromData, hread, hdecFile, hdec, hset]
    rw [fileLoop_eq_foldl, dataLoop_eq_foldl]
  exact ⟨hmain, by rw [hmain], by rw [hmain], by rw [hmain]⟩

/-- Worked example for C20: on the blueprint `[x and y, z, w]` with an executor failing on `x`,
the file processor and the data processor give the same outcome. -/
theorem C20_file_and_data_processors_agree_witness :
    ProcessPackagesFromFile (exampleEnv [entryXY, entryUnknown, entryW] failOnX)
        "packages/base.yaml" "packages" exampleOSInfo exampleInitConfig
        = ProcessPackagesFromData (exampleEnv [entryXY, entryUnknown, entryW] failOnX) []
          "packages" exampleOSInfo exampleInitConfig
      ∧ (ProcessPackagesFromFile (exampleEnv [entryXY, entryUnknown, entryW] failOnX)
          "packages/base.yaml" "packages" exampleOSInfo exampleInitConfig).failedPackages
        = ["Package x: error processing package x: exit status 100",
           "Package z: unsupported package manager: unknown-xyz"] := by
  have h := C20_file_and_data_processors_agree
    (exampleEnv [entryXY, entryUnknown, entryW] failOnX) [] "packages/base.yaml" "packages" []
    exampleOSInfo exampleInitConfig _ rfl rfl rfl rfl
  exact ⟨h.1, by decide⟩

/-! ## `filepath.Clean` on plain names -/

theorem cleanLoop_nil (rooted mode : Bool) (out : List Char) (dotdot : Nat) :
    cleanLoop rooted mode [] out dotdot = out := by
  cases mode <;> rfl

theorem cleanLoop_copy_cons (rooted : Bool) (c : Char) (rest out : List Char) (dotdot : Nat) :
    cleanLoop rooted true (c :: rest) out dotdot
      = if c = '/' then cleanLoop rooted false rest out dotdot
        else cleanLoop rooted true rest (out ++ [c]) dotdot := rfl

theorem cleanLoop_start_single (c : Char) (out : List Char) (dotdot : Nat)
    (hc : c ≠ '/') (hd : c ≠ '.') :
    cleanLoop false false [c] out dotdot
      = (if out.length ≠ 0 then out ++ ['/'] else out) ++ [c] := by
  show (if c = '/' then _ else if c = '.' ∧ _ then _ else _) = _
  rw [if_neg hc, if_neg (fun h => hd h.1)]
  show cleanLoop false true [] _ dotdot = _
  rw [cleanLoop_nil]
  simp

theorem cleanLoop_start_sep (c : Char) (rest out : List Char) (dotdot : Nat)
    (hc : c ≠ '/') (hd : c ≠ '.') :
    cleanLoop false false (c :: '/' :: rest) out dotdot
      = cleanLoop false true ('/' :: rest)
          ((if out.length ≠ 0 then out ++ ['/'] else out) ++ [c]) dotdot := by
  show (if c = '/' then _ else if c = '.' ∧ _ then _ else _) = _
  rw [if_neg hc, if_neg (fun h => hd h.1)]
  show (if c = '.' ∧ _ then _ else _) = _
  rw [if_neg (fun h => hd h.1)]
  simp

theorem cleanLoop_start_two (c d : Char) (rest out : List Char) (dotdot : Nat)
    (hc : c ≠ '/') (hd : d ≠ '/')
    (hdots : ¬ (c = '.' ∧ d = '.' ∧ (rest.isEmpty = true ∨ rest.head? = some '/'))) :
    cleanLoop false false (c :: d :: rest) out dotdot
      = cleanLoop false true (d :: rest)
          ((if out.length ≠ 0 then out ++ ['/'] else out) ++ [c]) dotdot := by
  have h2 : ¬ (c = '.' ∧ ((d :: rest).isEmpty = true ∨ (d :: rest).head? = some '/')) := by
    simp [hd]
  show (if c = '/' then _ else if c = '.' ∧ _ then _ else _) = _
  rw [if_neg hc, if_neg h2]
  show (if c = '.' ∧ d = '.' ∧ _ then _ else _) = _
  rw [if_neg hdots]
  simp

theorem cleanLoop_copy (rooted : Bool) (xs rest out : List Char) (dotdot : Nat)
    (h : '/' ∉ xs) :
    cleanLoop rooted true (xs ++ '/' :: rest) out dotdot
      = cleanLoop rooted false rest (out ++ xs) dotdot := by
  induction xs generalizing out with
  | nil =>
    rw [List.nil_append, cleanLoop_copy_cons, if_pos rfl, List.append_nil]
  | cons x xs ih =>
    have hx : x ≠ '/' := fun hx => h (by simp [hx])
    have hxs : '/' ∉ xs := fun hm => h (List.mem_cons_of_mem _ hm)
    rw [List.cons_append, cleanLoop_copy_cons, if_neg hx, ih _ hxs, List.append_assoc]
    rfl

theorem cleanLoop_copy_end (rooted : Bool) (xs out : List Char) (dotdot : Nat)
    (h : '/' ∉ xs) :
    cleanLoop rooted true xs out dotdot = out ++ xs := by
  induction xs generalizing out with
  | nil => rw [cleanLoop_nil, List.append_nil]
  | cons x xs ih =>
    have hx : x ≠ '/' := fun hx => h (by simp [hx])
    have hxs : '/' ∉ xs := fun hm => h (List.mem_cons_of_mem _ hm)
    rw [cleanLoop_copy_cons, if_neg hx, ih _ hxs, List.append_assoc]
    rfl

theorem cleanLoop_plain_start (c : Char) (es tail out : List Char) (dotdot : Nat)
    (hsep : '/' ∉ c :: es) (hdot : c :: es ≠ ['.']) (hdotdot : c :: es ≠ ['.', '.'])
    (htail : tail = [] ∨ ∃ ts, tail = '/' :: ts) :
    cleanLoop false false (c :: es ++ tail) out dotdot
      = cleanLoop false true (es ++ tail)
          ((if out.length ≠ 0 then out ++ ['/'] else out) ++ [c]) dotdot := by
  have hc : c ≠ '/' := fun hc => hsep (by simp [hc])
  have hes : '/' ∉ es := fun hm => hsep (List.mem_cons_of_mem _ hm)
  cases es with
  | nil =>
    have hcd : c ≠ '.' := fun h => hdot (by simp [h])
    rcases htail with ht | ⟨ts, ht⟩
    · subst ht
      rw [List.cons_append, List.nil_append, cleanLoop_start_single c out dotdot hc hcd,
        cleanLoop_nil]
    · subst ht
      exact cleanLoop_start_sep c ts out dotdot hc hcd
  | cons d es2 =>
    have hd : d ≠ '/' := fun hd => hes (by simp [hd])
    have hes2 : '/' ∉ es2 := fun hm => hes (List.mem_cons_of_mem _ hm)
    apply cleanLoop_start_two c d (es2 ++ tail) out dotdot hc hd
    rintro ⟨h1, h2, h3⟩
    cases es2 with
    | nil => exact hdotdot (by simp [h1, h2])
    | cons e es3 =>
      have he : e ≠ '/' := fun he => hes2 (by simp [he])
      simp [he] at h3

theorem Clean_plain_join (g f : String) (hg : isPlainName g = true)
    (hf : isPlainName f = true) :
    Clean (g ++ "/" ++ f) = g ++ "/" ++ f := by
  obtain ⟨gl⟩ := g
  obtain ⟨fl⟩ := f
  simp only [isPlainName, String.toList, Bool.and_eq_true, decide_eq_true_eq,
    Bool.not_eq_true'] at hg hf
  obtain ⟨⟨⟨hgne, hgc⟩, hgdot⟩, hgdd⟩ := hg
  obtain ⟨⟨⟨hfne, hfc⟩, hfdot⟩, hfdd⟩ := hf
  have hgsep : '/' ∉ gl := by simpa using hgc
  have hfsep : '/' ∉ fl := by simpa using hfc
  cases gl with
  | nil => exact absurd rfl hgne
  | cons c gs =>
    cases fl with
    | nil => exact absurd rfl hfne
    | cons c2 fs =>
      have hc : c ≠ '/' := fun hc => hgsep (by simp [hc])
      have hdata : ((⟨c :: gs⟩ : String) ++ "/" ++ ⟨c2 :: fs⟩).data
          = (c :: gs) ++ '/' :: (c2 :: fs) := by
        simp [String.data_append]
      have hne : ((⟨c :: gs⟩ : String) ++ "/" ++ ⟨c2 :: fs⟩) ≠ "" := by
        intro h
        have := congrArg String.data h
        rw [hdata] at this
        simp at this
      unfold Clean
      rw [if_neg hne]
      simp only [String.toList, hdata]
      have hhead : ¬ ((c :: gs ++ '/' :: c2 :: fs).head? = some '/') := by
        simp [hc]
      rw [if_neg hhead]
      have hloop : cleanLoop false false (c :: gs ++ '/' :: c2 :: fs) [] 0
          = (c :: gs) ++ '/' :: (c2 :: fs) := by
        rw [cleanLoop_plain_start c gs ('/' :: c2 :: fs) [] 0 hgsep hgdot hgdd
          (Or.inr ⟨_, rfl⟩)]
        rw [cleanLoop_copy false gs (c2 :: fs) _ 0
          (fun hm => hgsep (List.mem_cons_of_mem _ hm))]
        have h2 := cleanLoop_plain_start c2 fs [] (([] : List Char) ++ [c] ++ gs) 0
          hfsep hfdot hfdd (Or.inl rfl)
        simp only [List.append_nil] at h2
        simp only [List.length_nil, ne_eq, not_true_eq_false, if_false]
        rw [h2, cleanLoop_copy_end false fs _ 0
          (fun hm => hfsep (List.mem_cons_of_mem _ hm))]
        simp
      rw [hloop]
      simp only [List.cons_append, List.length_cons]
      rw [if_neg (by omega)]
      apply String.ext
      rw [hdata]
      rfl

theorem Join_plain (g f : String) (hg : isPlainName g = true) (hf : isPlainName f = true) :
    Join [g, f] = g ++ "/" ++ f := by
  have hne : g ≠ "" := by
    intro h
    subst h
    simp [isPlainName] at hg
  have hi : String.intercalate "/" [g, f] = g ++ "/" ++ f := by
    simp [String.intercalate, String.intercalate.go]
  unfold Join
  rw [if_pos hne, hi]
  exact Clean_plain_join g f hg hf

theorem Join_pair (g f : String) :
    Join [g, f]
      = if g ≠ "" then Clean (g ++ "/" ++ f) else if f ≠ "" then Clean f else "" := by
  by_cases hg : g = ""
  · by_cases hf : f = ""
    · simp [Join, hg, hf]
    · simp [Join, hg, hf, String.intercalate, String.intercalate.go]
  · simp [Join, hg, String.intercalate, String.intercalate.go]

/-- C18, as stated, fails: the path `GetBlueprintFileOrder` appends for a group is
`filepath.Join` of the group name and the file name, which cleans the path.  An empty group
name gives the file name alone, an empty file name or `.` gives the group name alone, `..`
removes the group name, and repeated or trailing separators are dropped; none of these is the
group name, `/`, and the file name. -/
theorem C18_group_path_counterexample :
    GetBlueprintFileOrder "packages" [.strMap [("", .slice [.str "b.yaml"])]]
        = (["b.yaml"], none)
      ∧ "b.yaml" ≠ "" ++ "/" ++ "b.yaml"
      ∧ GetBlueprintFileOrder "packages" [.strMap [("packages", .slice [.str ""])]]
        = (["packages"], none)
      ∧ "packages" ≠ "packages" ++ "/" ++ ""
      ∧ GetBlueprintFileOrder "packages" [.strMap [("packages", .slice [.str "../x.yaml"])]]
        = (["x.yaml"], none)
      ∧ "x.yaml" ≠ "packages" ++ "/" ++ "../x.yaml"
      ∧ GetBlueprintFileOrder "packages" [.strMap [("packages", .slice [.str "sub//c.yaml/"])]]
        = (["packages/sub/c.yaml"], none)
      ∧ "packages/sub/c.yaml" ≠ "packages" ++ "/" ++ "sub//c.yaml/"
      ∧ GetBlueprintFileOrder "packages" [.strMap [("packages", .slice [.str "."])]]
        = (["packages"], none)
      ∧ ¬ (∀ g f : String,
          GetBlueprintFileOrder "packages" [.strMap [(g, .slice [.str f])]]
            = ([g ++ "/" ++ f], none)) := by
  refine ⟨by decide, by decide, by decide, by decide, by decide, by decide, by decide,
    by decide, by decide, ?_⟩
  intro h
  have h1 := h "" "b.yaml"
  revert h1
  decide

theorem isPlainName_data (name : String) (h : isPlainName name = true) :
    ∃ c es, name.data = c :: es ∧ '/' ∉ c :: es ∧ c :: es ≠ ['.'] ∧ c :: es ≠ ['.', '.'] := by
  obtain ⟨l⟩ := name
  simp only [isPlainName, String.toList, Bool.and_eq_true, decide_eq_true_eq,
    Bool.not_eq_true'] at h
  obtain ⟨⟨⟨hne, hc⟩, hdot⟩, hdd⟩ := h
  have hsep : '/' ∉ l := by simpa using hc
  cases l with
  | nil => exact absurd rfl hne
  | cons c es => exact ⟨c, es, rfl, hsep, hdot, hdd⟩

theorem slashJoin_cons_cons (e e2 : String) (rest : List String) :
    slashJoin (e :: e2 :: rest) = e ++ "/" ++ slashJoin (e2 :: rest) := rfl

theorem slashJoin_data_cons_cons (e e2 : String) (rest : List String) :
    (slashJoin (e :: e2 :: rest)).data = e.data ++ '/' :: (slashJoin (e2 :: rest)).data := by
  rw [slashJoin_cons_cons]
  simp [String.data_append]

theorem slashJoin_data_ne_nil (elements : List String) (hne : elements ≠ [])
    (hall : ∀ e ∈ elements, isPlainName e = true) :
    ∃ c rest, (slashJoin elements).data = c :: rest ∧ c ≠ '/' := by
  cases elements with
  | nil => exact absurd rfl hne
  | cons e rest =>
    obtain ⟨c, es, hdata, hsep, _, _⟩ := isPlainName_data e (hall e (List.mem_cons_self _ _))
    have hc : c ≠ '/' := fun hc => hsep (by simp [hc])
    cases rest with
    | nil => exact ⟨c, es, hdata, hc⟩
    | cons e2 r =>
      refine ⟨c, es ++ '/' :: (slashJoin (e2 :: r)).data, ?_, hc⟩
      rw [slashJoin_data_cons_cons, hdata]
      rfl

theorem cleanLoop_slashJoin (elements : List String) (hne : elements ≠ [])
    (hall : ∀ e ∈ elements, isPlainName e = true) (out : List Char) (dotdot : Nat) :
    cleanLoop false false (slashJoin elements).data out dotdot
      = (if out.length ≠ 0 then out ++ ['/'] else out) ++ (slashJoin elements).data := by
  induction elements generalizing out with
  | nil => exact absurd rfl hne
  | cons e rest ih =>
    obtain ⟨c, es, hdata, hsep, hdot, hdd⟩ :=
      isPlainName_data e (hall e (List.mem_cons_self _ _))
    have hes : '/' ∉ es := fun hm => hsep (List.mem_cons_of_mem _ hm)
    cases rest with
    | nil =>
      have h1 := cleanLoop_plain_start c es [] out dotdot hsep hdot hdd (Or.inl rfl)
      simp only [List.append_nil] at h1
      show cleanLoop false false e.data out dotdot = _ ++ e.data
      rw [hdata, h1, cleanLoop_copy_end false es _ dotdot hes]
      simp
    | cons e2 r =>
      have hall2 : ∀ x ∈ e2 :: r, isPlainName x = true :=
        fun x hx => hall x (List.mem_cons_of_mem _ hx)
      have h1 := cleanLoop_plain_start c es ('/' :: (slashJoin (e2 :: r)).data) out dotdot
        hsep hdot hdd (Or.inr ⟨_, rfl⟩)
      rw [slashJoin_data_cons_cons, hdata, h1,
        cleanLoop_copy false es (slashJoin (e2 :: r)).data _ dotdot hes,
        ih (by simp) hall2]
      have hlen : ((if out.length ≠ 0 then out ++ ['/'] else out) ++ [c] ++ es).length ≠ 0 := by
        simp
      rw [if_pos hlen]
      simp

theorem Clean_slashJoin (elements : List String) (hne : elements ≠ [])
    (hall : ∀ e ∈ elements, isPlainName e = true) :
    Clean (slashJoin elements) = slashJoin elements := by
  obtain ⟨c, rest, hdata, hc⟩ := slashJoin_data_ne_nil elements hne hall
  have hnonempty : slashJoin elements ≠ "" := by
    intro h
    have := congrArg String.data h
    rw [hdata] at this
    simp at this
  have hloop := cleanLoop_slashJoin elements hne hall [] 0
  simp only [List.length_nil, ne_eq, not_true_eq_false, if_false, List.nil_append] at hloop
  unfold Clean
  rw [if_neg hnonempty]
  simp only [String.toList]
  have hhead : ¬ ((slashJoin elements).data.head? = some '/') := by
    rw [hdata]
    simp [hc]
  rw [if_neg hhead, hloop]
  have hlen : ¬ ((slashJoin elements).data.length = 0) := by
    rw [hdata]
    simp
  rw [if_neg hlen]

theorem slashJoin_append (first second : List String) (h1 : first ≠ []) (h2 : second ≠ []) :
    slashJoin (first ++ second) = slashJoin first ++ "/" ++ slashJoin second := by
  induction first with
  | nil => exact absurd rfl h1
  | cons e rest ih =>
    cases rest with
    | nil =>
      cases second with
      | nil => exact absurd rfl h2
      | cons s ss => rfl
    | cons e2 r =>
      rw [List.cons_append, List.cons_append, slashJoin_cons_cons, ← List.cons_append,
        ih (by simp), slashJoin_cons_cons]
      simp [String.append_assoc]

theorem Join_clean_paths (groupElements fileElements : List String)
    (hg : isCleanPath groupElements = true) (hf : isCleanPath fileElements = true) :
    Join [slashJoin groupElements, slashJoin fileElements]
      = slashJoin groupElements ++ "/" ++ slashJoin fileElements := by
  simp only [isCleanPath, Bool.and_eq_true, decide_eq_true_eq, List.all_eq_true] at hg hf
  obtain ⟨c, rest, hdata, _⟩ := slashJoin_data_ne_nil groupElements hg.1 hg.2
  have hne : slashJoin groupElements ≠ "" := by
    intro h
    have := congrArg String.data h
    rw [hdata] at this
    simp at this
  have hi : String.intercalate "/" [slashJoin groupElements, slashJoin fileElements]
      = slashJoin groupElements ++ "/" ++ slashJoin fileElements := by
    simp [String.intercalate, String.intercalate.go]
  unfold Join
  rw [if_pos hne, hi, ← slashJoin_append groupElements fileElements hg.1 hf.1]
  apply Clean_slashJoin
  · simp [hg.1]
  · intro e he
    rcases List.mem_append.mp he with h | h
    · exact hg.2 e h
    · exact hf.2 e h

theorem Join_empty_group (fileElements : List String)
    (hf : isCleanPath fileElements = true) :
    Join ["", slashJoin fileElements] = slashJoin fileElements := by
  simp only [isCleanPath, Bool.and_eq_true, decide_eq_true_eq, List.all_eq_true] at hf
  obtain ⟨c, rest, hdata, _⟩ := slashJoin_data_ne_nil fileElements hf.1 hf.2
  have hne : slashJoin fileElements ≠ "" := by
    intro h
    have := congrArg String.data h
    rw [hdata] at this
    simp at this
  have hi : String.intercalate "/" [slashJoin fileElements] = slashJoin fileElements := by
    simp [String.intercalate, String.intercalate.go]
  simp only [Join, ne_eq, not_true_eq_false, if_false, hne, not_false_eq_true, if_true, hi]
  exact Clean_slashJoin fileElements hf.1 hf.2

theorem fileOrder_single_group (blueprintDir : String) (g : String) (names : List String) :
    GetBlueprintFileOrder blueprintDir [.strMap [(g, .slice (names.map .str))]]
      = (names.map (fun f => Join [g, f]), none) := by
  rw [GetBlueprintFileOrder_eq]
  have h := expandItem_toValue (.group g names)
  simp only [OrderElem.toValue, OrderElem.expand] at h
  simp only [List.flatMap_cons, List.flatMap_nil, List.append_nil, h]

/-- C18, amended: when the group name and the file names of a grouping token are clean relative
paths (one or more path elements separated by single separators, each element non-empty,
without separator and neither `.` nor `..`; plain names in particular), the path
`GetBlueprintFileOrder` appends for a file name `f` of the group `g` is exactly `g`, followed by
`/`, followed by `f`.  With an empty group name the path appended for such a file name is the
file name alone, and for a group name and a file name both empty it is the empty string. -/
theorem C18_group_path_of_clean_names (blueprintDir : String) (groupElements : List String)
    (files : List (List String)) (g : String) (names : List String)
    (hfiles : ∀ fileElements ∈ files, isCleanPath fileElements = true)
    (hnames : ∀ f ∈ names, isPlainName f = true) :
    (isCleanPath groupElements = true →
        GetBlueprintFileOrder blueprintDir
            [.strMap [(slashJoin groupElements,
              .slice (files.map fun fileElements => .str (slashJoin fileElements)))]]
          = (files.map (fun fileElements =>
              slashJoin groupElements ++ "/" ++ slashJoin fileElements), none))
      ∧ (isPlainName g = true →
        GetBlueprintFileOrder blueprintDir [.strMap [(g, .slice (names.map .str))]]
          = (names.map (fun f => g ++ "/" ++ f), none))
      ∧ GetBlueprintFileOrder blueprintDir
          [.strMap [("", .slice (files.map fun fileElements => .str (slashJoin fileElements)))]]
        = (files.map slashJoin, none)
      ∧ GetBlueprintFileOrder blueprintDir [.strMap [("", .slice [.str ""])]]
        = ([""], none) := by
  have hmap : (files.map fun fileElements => Value.str (slashJoin fileElements))
      = (files.map slashJoin).map Value.str := by
    rw [List.map_map]
    rfl
  refine ⟨?_, ?_, ?_, ?_⟩
  · intro hg
    rw [hmap, fileOrder_single_group, List.map_map]
    congr 1
    apply List.map_congr_left
    intro fileElements hmem
    exact Join_clean_paths groupElements fileElements hg (hfiles fileElements hmem)
  · intro hg
    rw [fileOrder_single_group]
    congr 1
    apply List.map_congr_left
    intro f hf
    exact Join_plain g f hg (hnames f hf)
  · rw [hmap, fileOrder_single_group, List.map_map]
    congr 1
    apply List.map_congr_left
    intro fileElements hmem
    exact Join_empty_group fileElements (hfiles fileElements hmem)
  · have h := fileOrder_single_group blueprintDir "" [""]
    simp only [List.map_cons, List.map_nil] at h
    rw [h]
    decide

/-- Worked example for the amended C18: the group `packages` with the file names `b.yaml` and
`sub/c.yaml` gives `packages/b.yaml` and `packages/sub/c.yaml`; the same file names under an
empty group name give `b.yaml` and `sub/c.yaml`. -/
theorem C18_group_path_of_clean_names_witness :
    (∀ fileElements ∈ [["b.yaml"], ["sub", "c.yaml"]], isCleanPath fileElements = true)
      ∧ (∀ f ∈ ["b.yaml", "c.yaml"], isPlainName f = true)
      ∧ isCleanPath ["packages"] = true
      ∧ GetBlueprintFileOrder "packages"
          [.strMap [("packages", .slice [.str "b.yaml", .str "sub/c.yaml"])]]
        = (["packages/b.yaml", "packages/sub/c.yaml"], none)
      ∧ GetBlueprintFileOrder "packages"
          [.strMap [("packages", .slice [.str "b.yaml", .str "c.yaml"])]]
        = (["packages/b.yaml", "packages/c.yaml"], none)
      ∧ GetBlueprintFileOrder "packages"
          [.strMap [("", .slice [.str "b.yaml", .str "sub/c.yaml"])]]
        = (["b.yaml", "sub/c.yaml"], none) := by
  have h := C18_group_path_of_clean_names "packages" ["packages"]
    [["b.yaml"], ["sub", "c.yaml"]] "packages" ["b.yaml", "c.yaml"] (by decide) (by decide)
  exact ⟨by decide, by decide, by decide, (h.1 (by decide)).trans (by decide),
    (h.2.1 (by decide)).trans (by decide), h.2.2.1.trans (by decide)⟩

end Rwr
